import Mathlib

/-!
Verification of the instrument-io-skill tag resolution and cross-reference
consistency engine.  Strings from the Python source are modelled as `List Char`;
Python dictionaries with a fixed key set are modelled as structures, and
dictionaries used as lookup tables as association lists.  `uuid.uuid4()` is
modelled by an abstract fresh-identifier supply (a `Nat` counter); the float
`confidence` field of provenance records is not modelled.
-/

namespace InstrSkill

/-- Option fallback: first result if present, else the second. -/
def oget {α : Type} (a b : Option α) : Option α :=
  match a with
  | some x => some x
  | none => b

/-- ASCII uppercase letter test, matching the regex class `[A-Z]`. -/
def isUpperA (c : Char) : Bool := 65 ≤ c.toNat && c.toNat ≤ 90

/-- ASCII digit test, matching the regex class `\d` on the inputs considered. -/
def isDigitC (c : Char) : Bool := 48 ≤ c.toNat && c.toNat ≤ 57

/-- Uppercase a string, modelling Python `str.upper()`. -/
def upper (s : List Char) : List Char := s.map Char.toUpper

/-- Lowercase a string, modelling Python `str.lower()`. -/
def lower (s : List Char) : List Char := s.map Char.toLower

/-- Python `str.strip()`: remove leading and trailing whitespace. -/
def trim (s : List Char) : List Char :=
  ((s.dropWhile Char.isWhitespace).reverse.dropWhile Char.isWhitespace).reverse

/-- Python `str.zfill(n)` on digit strings: left-pad with zeros to width `n`. -/
def zfill (s : List Char) (n : Nat) : List Char :=
  List.replicate (n - s.length) '0' ++ s

/-- Parse a digit string to a natural number, modelling Python `int()`. -/
def digitsToNat (s : List Char) : Nat :=
  s.foldl (fun a c => 10 * a + (c.toNat - 48)) 0

/-- Decimal digits of a natural number (auxiliary, fuel-driven). -/
def natToStringAux : Nat → Nat → List Char → List Char
  | 0, _, acc => acc
  | fuel + 1, n, acc =>
    let d := Char.ofNat (48 + n % 10)
    if n < 10 then d :: acc else natToStringAux fuel (n / 10) (d :: acc)

/-- Decimal representation of a natural number, modelling Python `str()`/formatting. -/
def natToString (n : Nat) : List Char := natToStringAux (n + 1) n []

/-- State machine for the anchored regex `(/\d+)+` : state 0 expects `/`,
state 1 expects a first digit, state 2 is inside a digit run. -/
def sgAux : List Char → Nat → Bool
  | [], st => st == 2
  | c :: rest, 0 => if c = '/' then sgAux rest 1 else false
  | c :: rest, 1 => if isDigitC c then sgAux rest 2 else false
  | c :: rest, _ => if isDigitC c then sgAux rest 2 else if c = '/' then sgAux rest 1 else false

/-- Does `s` consist entirely of one or more `/NN` paired-suffix groups? -/
def isSuffixGroups (s : List Char) : Bool := sgAux s 0

/-- Auxiliary for `stripPairedSuffix`: scan left to right for the first position
from which the remainder is entirely paired-suffix groups. -/
def stripGo (acc : List Char) : List Char → List Char
  | [] => acc.reverse
  | c :: r => if isSuffixGroups (c :: r) then acc.reverse else stripGo (c :: acc) r

/-- Python `re.sub(r"(/\d+)+$", "", s)`: remove the maximal trailing run of
`/NN` paired-suffix groups. -/
def stripPairedSuffix (s : List Char) : List Char := stripGo [] s

/-- Auxiliary for `lazyPairedBase`: find the shortest non-empty proper prefix
whose remainder is entirely paired-suffix groups. -/
def lazyGo (acc : List Char) : List Char → Option (List Char)
  | [] => none
  | c :: r => if isSuffixGroups r then some (c :: acc).reverse else lazyGo (c :: acc) r

/-- Group 1 of Python `re.match(r"^(.+?)(/\d+)+$", s)`: the lazily matched
non-empty stem before the trailing paired-suffix groups, if the regex matches. -/
def lazyPairedBase (s : List Char) : Option (List Char) := lazyGo [] s

/-- Prefix of `s` before the first occurrence of the separator `sep`
(Python `s.split(sep)[0]` for non-empty `sep`). -/
def beforeFirst (sep : List Char) : List Char → List Char
  | [] => []
  | c :: rest =>
    if sep ≠ [] ∧ sep.isPrefixOf (c :: rest) then []
    else c :: beforeFirst sep rest

/-! ## Model of `scripts/decode_isa_tag.py` -/

/-- The `FIRST_LETTERS` table (ISA-5.1 measured variable). -/
def FIRST_LETTERS (c : Char) : Option (List Char) :=
  if c = 'A' then some ("Analysis".data)
  else if c = 'B' then some ("Burner/Combustion".data)
  else if c = 'C' then some ("Conductivity".data)
  else if c = 'D' then some ("Density".data)
  else if c = 'E' then some ("Voltage".data)
  else if c = 'F' then some ("Flow Rate".data)
  else if c = 'G' then some ("Gaging/Position".data)
  else if c = 'H' then some ("Hand/Manual".data)
  else if c = 'I' then some ("Current".data)
  else if c = 'J' then some ("Power".data)
  else if c = 'K' then some ("Time".data)
  else if c = 'L' then some ("Level".data)
  else if c = 'M' then some ("Moisture".data)
  else if c = 'N' then some ("User Choice".data)
  else if c = 'O' then some ("User Choice".data)
  else if c = 'P' then some ("Pressure".data)
  else if c = 'Q' then some ("Quantity".data)
  else if c = 'R' then some ("Radiation".data)
  else if c = 'S' then some ("Speed".data)
  else if c = 'T' then some ("Temperature".data)
  else if c = 'U' then some ("Multivariable".data)
  else if c = 'V' then some ("Vibration".data)
  else if c = 'W' then some ("Weight".data)
  else if c = 'X' then some ("Unclassified".data)
  else if c = 'Y' then some ("Event/State".data)
  else if c = 'Z' then some ("Position".data)
  else none

/-- The `SUCCEEDING_LETTERS` table (ISA-5.1 function letters). -/
def SUCCEEDING_LETTERS (c : Char) : Option (List Char) :=
  if c = 'A' then some ("Alarm".data)
  else if c = 'B' then some ("User Choice".data)
  else if c = 'C' then some ("Control".data)
  else if c = 'D' then some ("Differential".data)
  else if c = 'E' then some ("Sensing Element".data)
  else if c = 'G' then some ("Glass/Viewing".data)
  else if c = 'H' then some ("High".data)
  else if c = 'I' then some ("Indicate".data)
  else if c = 'K' then some ("Control Station".data)
  else if c = 'L' then some ("Low/Light".data)
  else if c = 'M' then some ("Middle".data)
  else if c = 'N' then some ("User Choice".data)
  else if c = 'O' then some ("Orifice".data)
  else if c = 'P' then some ("Point/Test".data)
  else if c = 'Q' then some ("Integrate/Totalize".data)
  else if c = 'R' then some ("Record".data)
  else if c = 'S' then some ("Switch/Safety".data)
  else if c = 'T' then some ("Transmit".data)
  else if c = 'U' then some ("Multifunction".data)
  else if c = 'V' then some ("Valve".data)
  else if c = 'W' then some ("Well".data)
  else if c = 'X' then some ("Unclassified".data)
  else if c = 'Y' then some ("Relay/Compute".data)
  else if c = 'Z' then some ("Driver/Actuator".data)
  else none

/-- The `CATEGORY_RULES` table. -/
def CATEGORY_RULES (c : Char) : Option (List Char) :=
  if c = 'E' then some ("primary".data)
  else if c = 'T' then some ("transmitting".data)
  else if c = 'I' then some ("indicating".data)
  else if c = 'R' then some ("recording".data)
  else if c = 'C' then some ("controlling".data)
  else if c = 'S' then some ("switching".data)
  else if c = 'A' then some ("safety".data)
  else none

/-- Deterministic parse of the anchored regex
`^(\d{3})-([A-Z]+)-(\d+)([A-Z]?)$` used by `decode_tag`, returning
`(area, letters, loop_number, suffix)`. -/
def parseTagRe (t : List Char) : Option (List Char × List Char × List Char × List Char) :=
  let area := t.take 3
  let rest := t.drop 3
  if area.length = 3 ∧ area.all isDigitC then
    match rest with
    | '-' :: rest1 =>
      let letters := rest1.takeWhile isUpperA
      let rest2 := rest1.dropWhile isUpperA
      if letters = [] then none
      else
        match rest2 with
        | '-' :: rest3 =>
          let num := rest3.takeWhile isDigitC
          let rest4 := rest3.dropWhile isDigitC
          if num = [] then none
          else
            match rest4 with
            | [] => some (area, letters, num, [])
            | [c] => if isUpperA c then some (area, letters, num, [c]) else none
            | _ => none
        | _ => none
    | _ => none
  else none

/-- The per-character loop of `decode_tag` over `letters[1:]`: every character
goes to the function string except a final `H`/`L`/`A`, which becomes the
modifier. Returns `(function, modifier)`. -/
def splitFunc : List Char → List Char × List Char
  | [] => ([], [])
  | [c] => if c = 'H' ∨ c = 'L' ∨ c = 'A' then ([], [c]) else ([c], [])
  | c :: c' :: rest =>
    let p := splitFunc (c' :: rest)
    (c :: p.1, p.2)

/-- The category-selection loop of `decode_tag`: first function letter found in
`CATEGORY_RULES`, defaulting to `"primary"`. -/
def categoryOf : List Char → List Char
  | [] => "primary".data
  | c :: rest =>
    match CATEGORY_RULES c with
    | some cat => cat
    | none => categoryOf rest

/-- Result record of `decode_tag`. -/
structure DecodedTag where
  area : List Char
  var : List Char
  variable_name : List Char
  function : List Char
  function_names : List (List Char)
  modifier : List Char
  loop_number : List Char
  suffix : List Char
  category : List Char
  loop_id : List Char
  full_tag : List Char
deriving DecidableEq, Repr

/-- Model of `decode_tag` from `scripts/decode_isa_tag.py`. -/
def decode_tag (tag : List Char) : Option DecodedTag :=
  let t := upper tag
  match parseTagRe t with
  | none => none
  | some (area, letters, loop_number, suffix) =>
    if letters.length < 2 then none
    else
      match letters with
      | [] => none
      | v :: remaining =>
        let fm := splitFunc remaining
        let function := fm.1
        let modifier := fm.2
        let variable_name := (FIRST_LETTERS v).getD ("Unknown".data)
        let function_names := function.map (fun c => (SUCCEEDING_LETTERS c).getD ("Unknown".data))
        let category := categoryOf function
        let loop_id := v :: function ++ '-' :: loop_number
        some {
          area := area
          var := [v]
          variable_name := variable_name
          function := function
          function_names := function_names
          modifier := modifier
          loop_number := loop_number
          suffix := suffix
          category := category
          loop_id := loop_id
          full_tag := t
        }

/-- Model of `generate_tag` from `scripts/decode_isa_tag.py`. -/
def generate_tag (area v function loop_number : List Char)
    (modifier : List Char := []) (suffix : List Char := []) : List Char :=
  upper (area ++ '-' :: (v ++ function ++ modifier) ++ '-' :: (loop_number ++ suffix))

/-! ## Data model shared by `apply_io_patterns.py` and `sync_cross_refs.py` -/

/-- A structured instrument tag dictionary; absent keys are modelled by the
default values that the Python `.get(key, default)` accesses produce. -/
structure TagData where
  full_tag : List Char := []
  var : List Char := []
  function : List Char := []
  functions : List (List Char) := []
  modifier : List Char := []
  area : List Char := []
  loop_number : List Char := []
  suffix : List Char := []
deriving DecidableEq, Repr

/-- The value stored under an instrument's `tag` key: either a structured
dictionary or some non-dict value whose `str()` rendering is kept. -/
inductive TagVal where
  | dict (d : TagData)
  | other (s : List Char)
deriving DecidableEq, Repr

/-- Provenance marker of an instrument (the float `confidence` field is not
modelled). -/
structure Provenance where
  source_type : List Char := []
  extraction_source : List Char := []
deriving DecidableEq, Repr

/-- A generated IO signal record. `io_point_id` models `uuid.uuid4()` through
an abstract fresh-identifier supply. -/
structure IOSignal where
  io_point_id : Nat
  signal_function : List Char
  io_type : List Char
  signal_type : List Char
  termination : List Char
  component_type : List Char
  plc_tag : List Char
  field_tag : List Char
  suffix : List Char
  description : List Char
  protocol : Option (List Char)
  marshalling : Option (List Char)
  pattern_source : Option (List Char)
  electrical_feeder_type : List Char
deriving DecidableEq, Repr

/-- An instrument database entry (the fields the scripts touch). -/
structure Instrument where
  instrument_id : Nat := 0
  equipment_tag : Option (List Char) := none
  instrument_type : Option (List Char) := none
  tag : Option TagVal := none
  service_description : List Char := []
  io_signals : List IOSignal := []
  primary_signal_type : Option (List Char) := none
  provenance : Option Provenance := none
deriving DecidableEq, Repr

/-- An equipment-list entry. `quantity` is the value of Python
`int(eq.get("quantity", 1))` when that parse succeeds, `none` otherwise;
`quantity_note` is `str(eq.get("quantity_note") or "")`. -/
structure Equipment where
  tag : List Char := []
  feeder_type : List Char := []
  quantity : Option Int := none
  quantity_note : List Char := []
  description : Option (List Char) := none
  area : List Char := []
deriving DecidableEq, Repr

/-- One signal template of an IO pattern (absent keys are `none`). -/
structure SigTemplate where
  suffix : Option (List Char) := none
  function : Option (List Char) := none
  io_type : Option (List Char) := none
  signal_type : Option (List Char) := none
  component : Option (List Char) := none
  description : Option (List Char) := none
  protocol : Option (List Char) := none
deriving DecidableEq, Repr

/-- A named IO pattern: an ordered list of signal templates. -/
structure Pattern where
  signals : List SigTemplate := []
deriving DecidableEq, Repr

/-- Python dictionary lookup on an association list. -/
def dictGet? {β : Type} : List (List Char × β) → List Char → Option β
  | [], _ => none
  | (k', v) :: rest, k => if k' = k then some v else dictGet? rest k

/-- Python `d[k] = v`: replace an existing binding or append a new one. -/
def dictInsert {β : Type} : List (List Char × β) → List Char → β → List (List Char × β)
  | [], k, v => [(k, v)]
  | (k', v') :: rest, k, v =>
    if k' = k then (k', v) :: rest else (k', v') :: dictInsert rest k v

/-- Python `d.setdefault(k, v)`: bind only when the key is absent. -/
def dictSetdefault {β : Type} (m : List (List Char × β)) (k : List Char) (v : β) :
    List (List Char × β) :=
  match dictGet? m k with
  | some _ => m
  | none => m ++ [(k, v)]

/-! ## Model of `scripts/apply_io_patterns.py` -/

/-- The `MOTOR_PATTERNS` table. -/
def MOTOR_PATTERNS (f : List Char) : Option (List Char) :=
  if f = "DOL".data then some ("pump_dol".data)
  else if f = "VFD".data then some ("pump_vfd".data)
  else if f = "VFD-EXT".data then some ("pump_vfd_extended".data)
  else if f = "VFD_EXTENDED".data then some ("pump_vfd_extended".data)
  else if f = "SOFT-STARTER".data then some ("motor_soft_starter".data)
  else if f = "SOFT_STARTER".data then some ("motor_soft_starter".data)
  else if f = "VENDOR".data then some ("pump_dol".data)
  else if f = "VENDOR_PANEL".data then some ("pump_dol".data)
  else none

/-- The `PUMP_PATTERNS` table. -/
def PUMP_PATTERNS (f : List Char) : Option (List Char) :=
  if f = "DOL".data then some ("pump_dol".data)
  else if f = "VFD".data then some ("pump_vfd".data)
  else if f = "VFD-EXT".data then some ("pump_vfd_extended".data)
  else if f = "SOFT-STARTER".data then some ("motor_soft_starter".data)
  else if f = "VENDOR".data then some ("pump_dol".data)
  else if f = "AODD".data then some ("aodd_pump".data)
  else if f = "METERING".data then some ("metering_pump_speed".data)
  else if f = "METERING-FULL".data then some ("metering_pump_full".data)
  else none

/-- The `VALVE_PATTERNS` table. -/
def VALVE_PATTERNS (f : List Char) : Option (List Char) :=
  if f = "MOD-ELECTRIC".data then some ("valve_modulating_electric".data)
  else if f = "MOD-PNEUMATIC".data then some ("valve_modulating_pneumatic".data)
  else if f = "ONOFF-ELECTRIC".data then some ("valve_onoff_electric".data)
  else if f = "ONOFF-PNEUMATIC".data then some ("valve_onoff_pneumatic".data)
  else if f = "POSITIONER".data then some ("valve_positioner".data)
  else if f = "SOLENOID".data then some ("solenoid_valve".data)
  else none

/-- The inline `{"DEFAULT": "valve_onoff_electric"}` table bound to `MOV`. -/
def MOV_TABLE (f : List Char) : Option (List Char) :=
  if f = "DEFAULT".data then some ("valve_onoff_electric".data) else none

/-- The inline `{"DEFAULT": "solenoid_valve"}` table bound to `SOV`. -/
def SOV_TABLE (f : List Char) : Option (List Char) :=
  if f = "DEFAULT".data then some ("solenoid_valve".data) else none

/-- The `EQUIPMENT_PATTERN_MAP` table: equipment-type code to feeder table. -/
def EQUIPMENT_PATTERN_MAP (code : List Char) : Option (List Char → Option (List Char)) :=
  if code = "P".data then some PUMP_PATTERNS
  else if code = "PU".data then some PUMP_PATTERNS
  else if code = "B".data then some MOTOR_PATTERNS
  else if code = "BL".data then some MOTOR_PATTERNS
  else if code = "MX".data then some MOTOR_PATTERNS
  else if code = "AG".data then some MOTOR_PATTERNS
  else if code = "CP".data then some MOTOR_PATTERNS
  else if code = "FN".data then some MOTOR_PATTERNS
  else if code = "SC".data then some MOTOR_PATTERNS
  else if code = "CN".data then some MOTOR_PATTERNS
  else if code = "CL".data then some MOTOR_PATTERNS
  else if code = "TH".data then some MOTOR_PATTERNS
  else if code = "CF".data then some MOTOR_PATTERNS
  else if code = "BF".data then some MOTOR_PATTERNS
  else if code = "WC".data then some MOTOR_PATTERNS
  else if code = "CT".data then some MOTOR_PATTERNS
  else if code = "C".data then some MOTOR_PATTERNS
  else if code = "COMP".data then some MOTOR_PATTERNS
  else if code = "G".data then some MOTOR_PATTERNS
  else if code = "GR".data then some MOTOR_PATTERNS
  else if code = "SP".data then some MOTOR_PATTERNS
  else if code = "FP".data then some MOTOR_PATTERNS
  else if code = "SM".data then some MOTOR_PATTERNS
  else if code = "DR".data then some MOTOR_PATTERNS
  else if code = "MP".data then some PUMP_PATTERNS
  else if code = "CV".data then some VALVE_PATTERNS
  else if code = "MOV".data then some MOV_TABLE
  else if code = "SOV".data then some SOV_TABLE
  else if code = "BV".data then some VALVE_PATTERNS
  else if code = "GV".data then some VALVE_PATTERNS
  else none

/-- The `FEEDER_DISPLAY` table. -/
def FEEDER_DISPLAY (f : List Char) : Option (List Char) :=
  if f = "DOL".data then some ("DOL".data)
  else if f = "VFD".data then some ("VFD".data)
  else if f = "VFD-EXT".data then some ("VFD".data)
  else if f = "VFD_EXTENDED".data then some ("VFD".data)
  else if f = "SOFT-STARTER".data then some ("Soft-Starter".data)
  else if f = "SOFT_STARTER".data then some ("Soft-Starter".data)
  else if f = "VENDOR".data then some ("Vendor Panel".data)
  else if f = "VENDOR_PANEL".data then some ("Vendor Panel".data)
  else if f = "AODD".data then some ("DOL".data)
  else if f = "METERING".data then some ("DOL".data)
  else if f = "METERING-FULL".data then some ("DOL".data)
  else if f = "MOD-ELECTRIC".data then some ("Direct".data)
  else if f = "MOD-PNEUMATIC".data then some ("Direct".data)
  else if f = "ONOFF-ELECTRIC".data then some ("Direct".data)
  else if f = "ONOFF-PNEUMATIC".data then some ("Direct".data)
  else if f = "POSITIONER".data then some ("Direct".data)
  else if f = "SOLENOID".data then some ("Direct".data)
  else if f = "DEFAULT".data then some ("Direct".data)
  else none

/-- The part of the regex `[A-Z]?\d{3,4}-([A-Z]+)-\d+` after the optional
leading letter (deterministic form). -/
def matchLongTail (s1 : List Char) : Option (List Char) :=
  let ds := s1.takeWhile isDigitC
  let r1 := s1.dropWhile isDigitC
  if ds.length = 3 ∨ ds.length = 4 then
    match r1 with
    | '-' :: r2 =>
      let ls := r2.takeWhile isUpperA
      let r3 := r2.dropWhile isUpperA
      if ls = [] then none
      else
        match r3 with
        | '-' :: r4 =>
          match r4 with
          | d :: _ => if isDigitC d then some ls else none
          | [] => none
        | _ => none
    | _ => none
  else none

/-- The prefix-anchored regex `[A-Z]?\d{3,4}-([A-Z]+)-\d+` of
`extract_equipment_type` (deterministic form). -/
def matchLongForm (s : List Char) : Option (List Char) :=
  matchLongTail (match s with
    | c :: rest => if isUpperA c then rest else c :: rest
    | [] => [])

/-- The prefix-anchored regex `([A-Z]{1,5})-\d+` of `extract_equipment_type`
(deterministic form). -/
def matchShortForm (s : List Char) : Option (List Char) :=
  let ls := s.takeWhile isUpperA
  let r1 := s.dropWhile isUpperA
  if 1 ≤ ls.length ∧ ls.length ≤ 5 then
    match r1 with
    | '-' :: r2 =>
      match r2 with
      | d :: _ => if isDigitC d then some ls else none
      | [] => none
    | _ => none
  else none

/-- Model of `extract_equipment_type` from `scripts/apply_io_patterns.py`. -/
def extract_equipment_type (tag : List Char) : List Char :=
  match matchLongForm tag with
  | some code => code
  | none => (matchShortForm tag).getD []

/-- Model of `normalize_equipment_tag` from `scripts/apply_io_patterns.py`. -/
def normalize_equipment_tag (raw_tag : List Char) : List (List Char) :=
  ((raw_tag.splitOn ',').map (fun t => stripPairedSuffix (trim t))).filter (fun c => c ≠ [])

/-- Model of `get_pattern_for_equipment` from `scripts/apply_io_patterns.py`. -/
def get_pattern_for_equipment (equipment : Equipment) :
    Option (List Char) × Option (List Char) :=
  let feeder_type := trim (upper equipment.feeder_type)
  if feeder_type = [] then (none, none)
  else
    let eq_type := extract_equipment_type equipment.tag
    if eq_type = [] then (none, none)
    else
      match EQUIPMENT_PATTERN_MAP eq_type with
      | none => (none, none)
      | some pattern_table =>
        match oget (pattern_table feeder_type) (pattern_table ("DEFAULT".data)) with
        | none => (none, none)
        | some pattern_name =>
          (some pattern_name, some ((FEEDER_DISPLAY feeder_type).getD feeder_type))

/-- One signal of `generate_io_signals`, built from a template. -/
def genSignal (sig : SigTemplate) (base_tag feeder_type : List Char) (idn : Nat) : IOSignal :=
  let suffix := sig.suffix.getD []
  { io_point_id := idn
    signal_function := sig.function.getD ("Status".data)
    io_type := sig.io_type.getD ("DI".data)
    signal_type := sig.signal_type.getD ("24V DC".data)
    termination := "PLC".data
    component_type := sig.component.getD []
    plc_tag := if suffix ≠ [] then base_tag ++ '-' :: suffix else base_tag
    field_tag := if suffix ≠ [] then base_tag ++ '-' :: suffix else base_tag
    suffix := suffix
    description := sig.description.getD []
    protocol := sig.protocol
    marshalling := none
    pattern_source := none
    electrical_feeder_type := feeder_type }

/-- Loop body of `generate_io_signals`: one signal per template, in order. -/
def gisGo (base_tag feeder_type : List Char) : List SigTemplate → Nat → List IOSignal
  | [], _ => []
  | sig :: rest, idn => genSignal sig base_tag feeder_type idn :: gisGo base_tag feeder_type rest (idn + 1)

/-- Model of `generate_io_signals` from `scripts/apply_io_patterns.py`; `idStart` is the
abstract fresh-identifier supply standing in for `uuid.uuid4()`. -/
def generate_io_signals (pattern : Pattern) (base_tag feeder_type : List Char)
    (idStart : Nat) : List IOSignal :=
  gisGo base_tag feeder_type pattern.signals idStart

/-- Model of `is_local_instrument` from `scripts/apply_io_patterns.py`. -/
def is_local_instrument (inst : Instrument) : Bool :=
  let tag_data : TagData := match inst.tag with
    | some (.dict d) => d
    | _ => {}
  let full_tag := trim tag_data.full_tag
  let functions := tag_data.functions
  let inst_type := lower (inst.instrument_type.getD [])
  let local_prefixes : List (List Char) :=
    ["PG".data, "TG".data, "FG".data, "LG".data, "SG".data]
  let tag_up := if full_tag ≠ [] then
    beforeFirst ("-".data) (beforeFirst ("--".data) (upper full_tag)) else []
  let manual_valve_prefixes : List (List Char) :=
    ["VB".data, "BFV".data, "GV".data, "V-RN".data, "NRV".data, "CV-M".data]
  if ("G".data) ∈ functions ∧ ("T".data) ∉ functions ∧ ("S".data) ∉ functions then true
  else if tag_up ∈ local_prefixes then true
  else if (local_prefixes.any (fun p => p.isPrefixOf (upper full_tag))) ∧
      (let rest := (upper full_tag).drop 2
       rest = [] ∨ ("-".data).isPrefixOf rest ∨ (" ".data).isPrefixOf rest) then true
  else if manual_valve_prefixes.any (fun p => p.isPrefixOf (upper full_tag)) then true
  else if inst_type = "ball valve".data ∨ inst_type = "manual valve".data ∨
      inst_type = "gate valve".data ∨ inst_type = "butterfly valve".data ∨
      inst_type = "check valve".data ∨ inst_type = "non-return valve".data then true
  else if tag_up = "ST".data ∨ inst_type = "strainer".data then true
  else false

/-- Model of `infer_field_instrument_pattern` from `scripts/apply_io_patterns.py`. -/
def infer_field_instrument_pattern (inst : Instrument) : Option (List Char) :=
  if is_local_instrument inst then none
  else
    let tag_data : TagData := match inst.tag with
      | some (.dict d) => d
      | _ => {}
    let functions := tag_data.functions
    let v := tag_data.var
    let inst_type := lower (inst.instrument_type.getD [])
    if ("T".data) ∈ functions ∧ ("I".data) ∈ functions then some ("transmitter_4_20".data)
    else if inst_type = "transmitter".data then some ("transmitter_4_20".data)
    else if ("S".data) ∈ functions then
      (if v = "L".data then some ("level_switch".data)
       else if v = "P".data then some ("pressure_switch".data)
       else if v = "T".data then some ("temperature_switch".data)
       else if v = "F".data then some ("flow_switch".data)
       else some ("level_switch".data))
    else if v = "X".data ∧ ("V".data) ∈ functions then some ("valve_onoff_electric".data)
    else if inst_type = "analyzer".data then some ("transmitter_4_20".data)
    else none

/-- The anchored shared stem `[A-Z]?\d{3,4}-[A-Z]{1,5}-` of the paired-tag and
sibling-tag regexes of `apply_patterns`; returns the consumed stem (both dashes
included) and the remainder. -/
def parseEqPfx (s : List Char) : Option (List Char × List Char) :=
  let optLetter : List Char × List Char := match s with
    | c :: rest => if isUpperA c then ([c], rest) else ([], c :: rest)
    | [] => ([], [])
  let lead := optLetter.1
  let s1 := optLetter.2
  let ds := s1.takeWhile isDigitC
  let r1 := s1.dropWhile isDigitC
  if ds.length = 3 ∨ ds.length = 4 then
    match r1 with
    | '-' :: r2 =>
      let ls := r2.takeWhile isUpperA
      let r3 := r2.dropWhile isUpperA
      if 1 ≤ ls.length ∧ ls.length ≤ 5 then
        match r3 with
        | '-' :: r4 => some (lead ++ ds ++ '-' :: (ls ++ ['-']), r4)
        | _ => none
      else none
    | _ => none
  else none

/-- The anchored regex `^([A-Z]?\d{3,4}-[A-Z]{1,5}-)(\d+)$` used for inferred
sibling tags; returns `(group1, group2)`. -/
def parseSiblingTag (s : List Char) : Option (List Char × List Char) :=
  match parseEqPfx s with
  | some (pfx, rest) =>
    if rest ≠ [] ∧ rest.all isDigitC then some (pfx, rest) else none
  | none => none

/-- The anchored regex `^([A-Z]?\d{3,4}-[A-Z]{1,5}-)(\d+)((?:/\d+)+)$`
(`_paired_tag_re`); returns `(group1, group2, group3)`. -/
def parsePairedTag (s : List Char) : Option (List Char × List Char × List Char) :=
  match parseEqPfx s with
  | some (pfx, rest) =>
    let seq := rest.takeWhile isDigitC
    let grp := rest.dropWhile isDigitC
    if seq ≠ [] ∧ isSuffixGroups grp then some (pfx, seq, grp) else none
  | none => none

/-- The paired/triple-tag expansion block of `apply_patterns`: the individual
tags registered for a compound tag such as `202-B-01/02`. -/
def pairedKeys (tag : List Char) : List (List Char) :=
  match parsePairedTag tag with
  | some (pfx, first_seq, grp) =>
    let all_seqs := first_seq :: ((grp.splitOn '/').filter (fun x => x ≠ []))
    let fmt_len := all_seqs.foldl (fun a s => max a s.length) 0
    all_seqs.map (fun seq => pfx ++ zfill seq fmt_len)
  | none => []

/-- The quantity-note sibling block of `apply_patterns`: inferred sister tags
registered when `quantity >= 2` and the upper-cased note contains `S`. -/
def siblingKeys (eq : Equipment) : List (List Char) :=
  let qty_note := upper eq.quantity_note
  let quantity := eq.quantity.getD 1
  if 2 ≤ quantity ∧ 'S' ∈ qty_note then
    match parseSiblingTag eq.tag with
    | some (pfx, seq) =>
      (List.range (quantity.toNat - 1)).map
        (fun o => pfx ++ zfill (natToString (digitsToNat seq + (o + 1))) seq.length)
    | none => []
  else []

/-- The non-raw alias keys one equipment entry registers, in registration
order: normalized variants, then paired expansion, then inferred siblings. -/
def derivedKeys (eq : Equipment) : List (List Char) :=
  normalize_equipment_tag eq.tag ++ pairedKeys eq.tag ++ siblingKeys eq

/-- The registration of one equipment entry into `equipment_map` in
`apply_patterns`: a plain overwrite for the raw tag, then `setdefault` for the
normalized, paired and sibling alias keys. -/
def registerEquipment (m : List (List Char × Equipment)) (eq : Equipment) :
    List (List Char × Equipment) :=
  if eq.tag = [] then m
  else
    let m1 := dictInsert m eq.tag eq
    let m2 := (normalize_equipment_tag eq.tag).foldl (fun acc k => dictSetdefault acc k eq) m1
    let m3 := (pairedKeys eq.tag).foldl (fun acc k => dictSetdefault acc k eq) m2
    (siblingKeys eq).foldl (fun acc k => dictSetdefault acc k eq) m3

/-- The `equipment_map` building loop of `apply_patterns`. -/
def buildEquipmentMap (equipment_list : List Equipment) : List (List Char × Equipment) :=
  equipment_list.foldl registerEquipment []

/-- The set of normalized equipment tags of instruments that already carry a
motor IO instrument, from `generate_motor_instruments`. -/
def existingMotorTags (instruments : List Instrument) : List (List Char) :=
  instruments.foldl (fun acc inst =>
    let eq_tag := inst.equipment_tag.getD []
    let full_tag := match inst.tag with
      | some (.dict d) => d.full_tag
      | _ => []
    let inst_type := lower (inst.instrument_type.getD [])
    if ("-M".data).isSuffixOf full_tag ∨ inst_type = "motor control".data ∨
        inst_type = "motor".data then
      acc ++ normalize_equipment_tag eq_tag
    else acc) []

/-- State threaded through `generate_motor_instruments`. -/
structure MotorGenState where
  instruments : List Instrument
  generated : Nat
  warnings : List (List Char)
  nextId : Nat
deriving DecidableEq, Repr

/-- Loop body of `generate_motor_instruments` for one equipment entry. -/
def motorStep (patterns : List (List Char × Pattern)) (existing : List (List Char))
    (st : MotorGenState) (eq : Equipment) : MotorGenState :=
  let feeder_type := trim (upper eq.feeder_type)
  if feeder_type = [] then st
  else
    let eq_type := extract_equipment_type eq.tag
    if (EQUIPMENT_PATTERN_MAP eq_type).isNone then st
    else
      let normalized_variants := normalize_equipment_tag eq.tag
      if normalized_variants.any (fun nt => nt ∈ existing) then st
      else
        match get_pattern_for_equipment eq with
        | (none, _) => st
        | (some pattern_name, feeder_display) =>
          match dictGet? patterns pattern_name with
          | none =>
            { st with warnings := st.warnings ++
                [("Pattern '".data) ++ pattern_name ++
                 ("' not found for motor instrument on ".data) ++ eq.tag] }
          | some pattern =>
            let motor_tag := eq.tag ++ ("-M".data)
            let io_signals :=
              (generate_io_signals pattern motor_tag (feeder_display.getD []) (st.nextId + 1)).map
                (fun s => { s with pattern_source := some pattern_name })
            let new_inst : Instrument := {
              instrument_id := st.nextId
              equipment_tag := some eq.tag
              instrument_type := some ("Motor Control".data)
              tag := some (.dict {
                full_tag := motor_tag
                var := []
                function := "M".data
                functions := ["M".data]
                area := eq.area
                loop_number := []
                suffix := "M".data })
              service_description := ("Motor control for ".data) ++ (eq.description.getD eq.tag)
              io_signals := io_signals
              primary_signal_type := none
              provenance := some {
                source_type := "auto_generated".data
                extraction_source := "motor_instrument_gen".data } }
            { instruments := st.instruments ++ [new_inst]
              generated := st.generated + 1
              warnings := st.warnings
              nextId := st.nextId + 1 + pattern.signals.length }

/-- Model of `generate_motor_instruments` from `scripts/apply_io_patterns.py`
(the appended instruments are returned inside the final state). -/
def generate_motor_instruments (equipment_list : List Equipment)
    (instruments : List Instrument) (patterns : List (List Char × Pattern))
    (startId : Nat) : MotorGenState :=
  let existing := existingMotorTags instruments
  equipment_list.foldl (motorStep patterns existing)
    { instruments := instruments, generated := 0, warnings := [], nextId := startId }

/-- The tag string used by the Phase-0 dedup pass for an instrument. -/
def dedupTagOf (inst : Instrument) : List Char :=
  match inst.tag with
  | some (.dict d) => d.full_tag
  | some (.other s) => s
  | none => []

/-- The `seen_tags` scan of the Phase-0 dedup pass: first index per non-empty
tag, plus the number of duplicates found. -/
def dedupScan (instruments : List Instrument) : List (List Char × Nat) × Nat :=
  instruments.enum.foldl (fun st p =>
    let ft := dedupTagOf p.2
    if ft ≠ [] then
      match dictGet? st.1 ft with
      | some _ => (st.1, st.2 + 1)
      | none => (st.1 ++ [(ft, p.1)], st.2)
    else st) ([], 0)

/-- Phase 0 of `apply_patterns`: deduplicate instruments by `full_tag`,
keeping the first occurrence. -/
def dedupInstruments (instruments : List Instrument) : List Instrument :=
  let st := dedupScan instruments
  if 0 < st.2 then
    (instruments.enum.filter (fun p =>
      let ft := dedupTagOf p.2
      (dictGet? st.1 ft) = none ∨ (dictGet? st.1 ft) = some p.1)).map (fun p => p.2)
  else instruments

/-- Phase 2 of `apply_patterns`, one instrument: returns the (possibly
updated) instrument, the next fresh identifier, and emitted warnings. -/
def phase2Step (equipment_map : List (List Char × Equipment))
    (patterns : List (List Char × Pattern)) (inst : Instrument) (nextId : Nat) :
    Instrument × Nat × List (List Char) :=
  if (inst.provenance.map Provenance.extraction_source)
      = some ("motor_instrument_gen".data) then
    (inst, nextId, [])
  else if inst.io_signals ≠ [] then (inst, nextId, [])
  else
    let equipment : Option Equipment :=
      match inst.equipment_tag with
      | some et =>
        if et ≠ [] then
          oget (dictGet? equipment_map et)
            ((normalize_equipment_tag et).foldl
              (fun acc nt => oget acc (dictGet? equipment_map nt)) none)
        else none
      | none => none
    let base_tag := match inst.tag with | some (.dict d) => d.full_tag | _ => []
    if is_local_instrument inst then (inst, nextId, [])
    else
      let inst_type := lower (inst.instrument_type.getD [])
      let tag_data : TagData := match inst.tag with | some (.dict d) => d | _ => {}
      let v := tag_data.var
      let functions := tag_data.functions
      let is_field_instrument :=
        (inst_type = "transmitter".data ∨ inst_type = "analyzer".data ∨
         inst_type = "switch".data ∨ inst_type = "indicator".data ∨
         inst_type = "gauge".data) ∨
        (v = "P".data ∨ v = "T".data ∨ v = "L".data ∨ v = "F".data ∨ v = "A".data ∨
         v = "S".data ∨ v = "C".data ∨ v = "Q".data) ∨
        (("I".data) ∈ functions ∨ ("T".data) ∈ functions ∨ ("S".data) ∈ functions)
      let eqResult : Option (Instrument × Nat) × List (List Char) :=
        match equipment with
        | some equip =>
          if is_field_instrument then (none, [])
          else
            match get_pattern_for_equipment equip with
            | (none, _) => (none, [])
            | (some pattern_name, feeder_type) =>
              match dictGet? patterns pattern_name with
              | some pattern =>
                let sigs :=
                  (generate_io_signals pattern base_tag (feeder_type.getD []) nextId).map
                    (fun s => { s with pattern_source := some pattern_name })
                (some ({ inst with io_signals := sigs }, nextId + pattern.signals.length), [])
              | none =>
                (none, [("Pattern '".data) ++ pattern_name ++
                        ("' not found in io-patterns.yaml".data)])
        | none => (none, [])
      match eqResult.1 with
      | some (inst', nid) => (inst', nid, eqResult.2)
      | none =>
        match infer_field_instrument_pattern inst with
        | some fallback_name =>
          match dictGet? patterns fallback_name with
          | some pattern =>
            let sigs :=
              (generate_io_signals pattern base_tag ("Direct".data) nextId).map
                (fun s => { s with pattern_source := some fallback_name })
            ({ inst with io_signals := sigs }, nextId + pattern.signals.length, eqResult.2)
          | none =>
            (inst, nextId, eqResult.2 ++
              [("Inferred pattern '".data) ++ fallback_name ++ ("' for '".data) ++
               base_tag ++ ("' not found in io-patterns.yaml — 0 IO assigned".data)])
        | none => (inst, nextId, eqResult.2)

/-- Phase 2 of `apply_patterns` over the whole instrument collection. -/
def phase2 (equipment_map : List (List Char × Equipment))
    (patterns : List (List Char × Pattern)) :
    List Instrument → Nat → List Instrument × Nat × List (List Char)
  | [], startId => ([], startId, [])
  | inst :: rest, startId =>
    let r := phase2Step equipment_map patterns inst startId
    let rr := phase2 equipment_map patterns rest r.2.1
    (r.1 :: rr.1, rr.2.1, r.2.2 ++ rr.2.2)

/-- Model of `apply_patterns` from `scripts/apply_io_patterns.py`: Phase 0 dedup, then
motor synthesis, then Phase 2 pattern application. -/
def apply_patterns (database : List Instrument) (equipment_list : List Equipment)
    (patterns : List (List Char × Pattern)) (startId : Nat) :
    List Instrument × List (List Char) :=
  let equipment_map := buildEquipmentMap equipment_list
  let feederWarnings := equipment_list.foldl (fun acc eq =>
    if eq.feeder_type = [] ∧ (EQUIPMENT_PATTERN_MAP (extract_equipment_type eq.tag)).isSome then
      acc ++ [("Missing feeder_type for ".data) ++
              (if eq.tag = [] then "unknown".data else eq.tag) ++
              (" (required for IO generation)".data)]
    else acc) []
  let deduped := dedupInstruments database
  let mg := generate_motor_instruments equipment_list deduped patterns startId
  let p2 := phase2 equipment_map patterns mg.instruments mg.nextId
  (p2.1, feederWarnings ++ mg.warnings ++ p2.2.2)

/-! ## Model of `scripts/sync_cross_refs.py` -/

/-- The error message of `validate_tag_consistency`. -/
def tagMismatchMsg (full_tag expected : List Char) : List Char :=
  ("Tag mismatch: ".data) ++ full_tag ++ (" vs computed ".data) ++ expected

/-- The reconstruction computed by `validate_tag_consistency`:
`VARIABLE+FUNCTION+MODIFIER-AREA-LOOP(-SUFFIX)` with empty parts skipped. -/
def reconstructExpected (t : TagData) : List Char :=
  let func_letters := t.var ++ t.function ++ t.modifier
  let parts := [func_letters, t.area, t.loop_number].filter (fun p => p ≠ [])
  let expected := List.intercalate ("-".data) parts
  if t.suffix ≠ [] then
    (if expected ≠ [] then expected ++ '-' :: t.suffix else t.suffix)
  else expected

/-- Model of `validate_tag_consistency` from `scripts/sync_cross_refs.py`. -/
def validate_tag_consistency (instruments : List Instrument) : List (List Char) :=
  instruments.foldl (fun errors inst =>
    match inst.tag with
    | some (.other _) => errors
    | some (.dict t) =>
      if t.full_tag ≠ [] then
        let expected := reconstructExpected t
        if upper t.full_tag ≠ upper expected then
          errors ++ [tagMismatchMsg t.full_tag expected]
        else errors
      else errors
    | none => errors) []

/-- Modelled from the amended specification wording: the tag self-consistency
finding for a single instrument — a mismatch is flagged exactly when the
non-empty `full_tag` of a structured tag differs, up to case, from the
`VARIABLE+FUNCTION+MODIFIER-AREA-LOOP(-SUFFIX)` reconstruction. -/
def tagConsistencyFinding (inst : Instrument) : Option (List Char) :=
  match inst.tag with
  | some (.dict t) =>
    if t.full_tag ≠ [] ∧ upper t.full_tag ≠ upper (reconstructExpected t) then
      some (tagMismatchMsg t.full_tag (reconstructExpected t))
    else none
  | _ => none

/-- The part of the anchored regex `^([A-Z]?\d{3,4})-([A-Z]{1,5})-(\d+)$`
after the optional leading letter `lead`. -/
def isaTail (lead s1 : List Char) : Option (List Char × List Char × List Char) :=
  let ds := s1.takeWhile isDigitC
  let r1 := s1.dropWhile isDigitC
  if ds.length = 3 ∨ ds.length = 4 then
    match r1 with
    | '-' :: r2 =>
      let ls := r2.takeWhile isUpperA
      let r3 := r2.dropWhile isUpperA
      if 1 ≤ ls.length ∧ ls.length ≤ 5 then
        match r3 with
        | '-' :: r4 =>
          if r4 ≠ [] ∧ r4.all isDigitC then some (lead ++ ds, ls, r4) else none
        | _ => none
      else none
    | _ => none
  else none

/-- The anchored regex `^([A-Z]?\d{3,4})-([A-Z]{1,5})-(\d+)$` (`ISA_TAG_RE`)
of `apply_auto_fixes`; returns `(group1, group2, group3)`. -/
def parseIsaTag (s : List Char) : Option (List Char × List Char × List Char) :=
  match s with
  | c :: rest => if isUpperA c then isaTail [c] rest else isaTail [] (c :: rest)
  | [] => isaTail [] []

/-- Python `f"{o:+d}"` for the small signed offsets of `apply_auto_fixes`. -/
def signedIntString (o : Int) : List Char :=
  if 0 ≤ o then '+' :: natToString o.toNat else '-' :: natToString (-o).toNat

/-- Strategy 2 of `apply_auto_fixes`: first offset in `[+1, -1, +2, -2]`
whose sibling tag is in the equipment set, with the offset that produced it. -/
def siblingFix (equipment_tags : List (List Char)) (pfxArea code seq_str : List Char) :
    Option (List Char × Int) :=
  let seq : Int := (digitsToNat seq_str : Int)
  let fmt_len := seq_str.length
  ([1, -1, 2, -2] : List Int).foldl (fun acc offset =>
    oget acc (
      let sibling_seq := seq + offset
      if sibling_seq < 1 then none
      else
        let sibling_tag := pfxArea ++ '-' :: code ++ '-' ::
          zfill (natToString sibling_seq.toNat) fmt_len
        if sibling_tag ∈ equipment_tags then some (sibling_tag, offset) else none)) none

/-- Fix message of strategy 1 of `apply_auto_fixes`. -/
def fixMsgStripped (full_tag original_ref base_tag : List Char) : List Char :=
  ("  [fix] ".data) ++ full_tag ++ (": '".data) ++ original_ref ++ ("' → '".data) ++
  base_tag ++ ("' (stripped paired suffix)".data)

/-- Fix message of strategy 2 of `apply_auto_fixes`. -/
def fixMsgSibling (full_tag original_ref sibling_tag : List Char) (offset : Int) : List Char :=
  ("  [fix] ".data) ++ full_tag ++ (": '".data) ++ original_ref ++ ("' → '".data) ++
  sibling_tag ++ ("' (sibling offset ".data) ++ signedIntString offset ++ (")".data)

/-- Informational message of strategy 3 of `apply_auto_fixes`. -/
def infoMsgNonIsa (full_tag original_ref : List Char) : List Char :=
  ("  [info] ".data) ++ full_tag ++ (": non-ISA equipment_tag '".data) ++ original_ref ++
  ("' — skipped (manual review)".data)

/-- The instrument tag used in the messages of `apply_auto_fixes`
(`"unknown"` when the instrument has no structured tag). -/
def fullTagOrUnknown (inst : Instrument) : List Char :=
  match inst.tag with
  | some (.dict d) => if d.full_tag = [] then "unknown".data else d.full_tag
  | _ => "unknown".data

/-- One instrument's pass of `apply_auto_fixes`: the (possibly rewritten)
instrument, whether a fix was applied, and the messages emitted. -/
def fixStep (equipment_tags : List (List Char)) (inst : Instrument) :
    Instrument × Bool × List (List Char) :=
  match inst.equipment_tag with
  | none => (inst, false, [])
  | some equip_tag =>
    if equip_tag = [] ∨ equip_tag ∈ equipment_tags then (inst, false, [])
    else
      let full_tag := fullTagOrUnknown inst
      let s1 : Option (List Char) :=
        match lazyPairedBase equip_tag with
        | some base_tag => if base_tag ∈ equipment_tags then some base_tag else none
        | none => none
      match s1 with
      | some base_tag =>
        ({ inst with equipment_tag := some base_tag }, true,
         [fixMsgStripped full_tag equip_tag base_tag])
      | none =>
        match parseIsaTag equip_tag with
        | some (pfxArea, code, seq_str) =>
          match siblingFix equipment_tags pfxArea code seq_str with
          | some (sibling_tag, offset) =>
            ({ inst with equipment_tag := some sibling_tag }, true,
             [fixMsgSibling full_tag equip_tag sibling_tag offset])
          | none => (inst, false, [])
        | none => (inst, false, [infoMsgNonIsa full_tag equip_tag])

/-- Model of `apply_auto_fixes` from `scripts/sync_cross_refs.py`: returns the updated
instruments, the fix count, and the messages. -/
def apply_auto_fixes (equipment_tags : List (List Char)) :
    List Instrument → List Instrument × Nat × List (List Char)
  | [] => ([], 0, [])
  | inst :: rest =>
    let r := fixStep equipment_tags inst
    let rr := apply_auto_fixes equipment_tags rest
    (r.1 :: rr.1, (if r.2.1 then 1 else 0) + rr.2.1, r.2.2 ++ rr.2.2)

/-! ## Specification-side characterizations -/

/-- Modelled from the amended specification wording: the last equipment entry
whose raw tag string equals the key (the raw-tag registration overwrites). -/
def lastRawBinding (equipment_list : List Equipment) (k : List Char) : Option Equipment :=
  (equipment_list.filter (fun e => decide (e.tag = k ∧ e.tag ≠ []))).getLast?

/-- Modelled from the amended specification wording: the first equipment entry
registering the key through a derived (setdefault) route. -/
def firstDerivedBinding (equipment_list : List Equipment) (k : List Char) : Option Equipment :=
  (equipment_list.filter (fun e => decide (e.tag ≠ [] ∧ k ∈ derivedKeys e))).head?

/-- The sibling tag candidate of `apply_auto_fixes` at a given offset:
same area prefix, same equipment-type code, sequence number offset and
zero-padded to the original sequence's width. -/
def siblingTagAt (pfxArea code seq_str : List Char) (o : Int) : List Char :=
  pfxArea ++ '-' :: code ++ '-' ::
    zfill (natToString ((digitsToNat seq_str : Int) + o).toNat) seq_str.length

/-- Specification-side candidate for one offset of the sibling probe: `none`
when the offset sequence would drop below 1 or the tag is unknown. -/
def siblingCand (equipment_tags : List (List Char)) (pfxArea code seq_str : List Char)
    (o : Int) : Option (List Char × Int) :=
  if (digitsToNat seq_str : Int) + o < 1 then none
  else if siblingTagAt pfxArea code seq_str o ∈ equipment_tags then
    some (siblingTagAt pfxArea code seq_str o, o)
  else none

/-! ## Character-level lemmas -/

theorem toNat_ofNat_valid (n : Nat) (h : n.isValidChar) : (Char.ofNat n).toNat = n := by
  rw [Char.ofNat, dif_pos h]
  rfl

theorem toUpper_eq_self_of_not_lower {c : Char}
    (h : ¬(97 ≤ c.toNat ∧ c.toNat ≤ 122)) : c.toUpper = c := by
  rw [Char.toUpper]
  simp only [ge_iff_le]
  rw [if_neg h]

theorem toNat_toUpper_of_lower {c : Char}
    (h : 97 ≤ c.toNat ∧ c.toNat ≤ 122) : c.toUpper.toNat = c.toNat - 32 := by
  rw [Char.toUpper]
  simp only [ge_iff_le]
  rw [if_pos h]
  exact toNat_ofNat_valid _ (Or.inl (by omega))

theorem isUpperA_toUpper_cases (c : Char) :
    c.toUpper = c ∨ (97 ≤ c.toNat ∧ c.toNat ≤ 122 ∧ c.toUpper.toNat = c.toNat - 32) := by
  by_cases h : 97 ≤ c.toNat ∧ c.toNat ≤ 122
  · exact Or.inr ⟨h.1, h.2, toNat_toUpper_of_lower h⟩
  · exact Or.inl (toUpper_eq_self_of_not_lower h)

theorem toUpper_toUpper (c : Char) : c.toUpper.toUpper = c.toUpper := by
  rcases isUpperA_toUpper_cases c with h | ⟨h1, h2, h3⟩
  · rw [h, h]
  · exact toUpper_eq_self_of_not_lower (by omega)

theorem upper_upper (s : List Char) : upper (upper s) = upper s := by
  simp [upper, Function.comp, toUpper_toUpper]

theorem toUpper_digit {c : Char} (h : isDigitC c = true) : c.toUpper = c := by
  simp only [isDigitC, Bool.and_eq_true, decide_eq_true_eq] at h
  exact toUpper_eq_self_of_not_lower (by omega)

theorem toUpper_of_isUpperA {c : Char} (h : isUpperA c = true) : c.toUpper = c := by
  simp only [isUpperA, Bool.and_eq_true, decide_eq_true_eq] at h
  exact toUpper_eq_self_of_not_lower (by omega)

theorem not_isDigitC_of_isUpperA {c : Char} (h : isUpperA c = true) : isDigitC c = false := by
  simp only [isUpperA, Bool.and_eq_true, decide_eq_true_eq] at h
  simp only [isDigitC, Bool.and_eq_false_iff, decide_eq_false_iff_not]
  omega

theorem upper_append (a b : List Char) : upper (a ++ b) = upper a ++ upper b :=
  List.map_append _ a b

theorem upper_cons (c : Char) (s : List Char) : upper (c :: s) = c.toUpper :: upper s :=
  List.map_cons _ c s

theorem upper_digits {s : List Char} (h : s.all isDigitC = true) : upper s = s := by
  induction s with
  | nil => rfl
  | cons c r ih =>
    simp only [List.all_cons, Bool.and_eq_true] at h
    rw [upper_cons, toUpper_digit h.1, ih h.2]

theorem upper_of_all_isUpperA {s : List Char} (h : s.all isUpperA = true) : upper s = s := by
  induction s with
  | nil => rfl
  | cons c r ih =>
    simp only [List.all_cons, Bool.and_eq_true] at h
    rw [upper_cons, toUpper_of_isUpperA h.1, ih h.2]

/-! ## The regex parse lemma for `decode_tag` -/

theorem parseTagRe_spec (a L n s : List Char)
    (ha : a.length = 3) (had : a.all isDigitC = true)
    (hL : L ≠ []) (hLa : L.all isUpperA = true)
    (hn : n ≠ []) (hnd : n.all isDigitC = true)
    (hs : s = [] ∨ ∃ c, s = [c] ∧ isUpperA c = true) :
    parseTagRe (a ++ '-' :: (L ++ '-' :: (n ++ s))) = some (a, L, n, s) := by
  have hLa' : ∀ c ∈ L, isUpperA c = true := by simpa [List.all_eq_true] using hLa
  have hnd' : ∀ c ∈ n, isDigitC c = true := by simpa [List.all_eq_true] using hnd
  have hdash : isUpperA '-' = false := by decide
  have h1 : (a ++ '-' :: (L ++ '-' :: (n ++ s))).take 3 = a := List.take_left' ha
  have h2 : (a ++ '-' :: (L ++ '-' :: (n ++ s))).drop 3 = '-' :: (L ++ '-' :: (n ++ s)) :=
    List.drop_left' ha
  have h3 : List.takeWhile isUpperA (L ++ '-' :: (n ++ s)) = L := by
    rw [List.takeWhile_append_of_pos hLa', List.takeWhile_cons_of_neg (by simp [hdash])]
    exact List.append_nil L
  have h4 : List.dropWhile isUpperA (L ++ '-' :: (n ++ s)) = '-' :: (n ++ s) := by
    rw [List.dropWhile_append_of_pos hLa', List.dropWhile_cons_of_neg (by simp [hdash])]
  have h5 : List.takeWhile isDigitC (n ++ s) = n := by
    rw [List.takeWhile_append_of_pos hnd']
    rcases hs with rfl | ⟨c, rfl, hc⟩
    · exact List.append_nil n
    · rw [List.takeWhile_cons_of_neg (by simp [not_isDigitC_of_isUpperA hc])]
      exact List.append_nil n
  have h6 : List.dropWhile isDigitC (n ++ s) = s := by
    rw [List.dropWhile_append_of_pos hnd']
    rcases hs with rfl | ⟨c, rfl, hc⟩
    · rfl
    · rw [List.dropWhile_cons_of_neg (by simp [not_isDigitC_of_isUpperA hc])]
  rcases hs with rfl | ⟨c, rfl, hc⟩
  · simp only [parseTagRe, h1, h2, ha, had, h3, h4, h5, h6, hL, hn, and_self, if_true,
      if_neg hL, if_neg hn]
    simp [hL, hn]
  · simp only [parseTagRe, h1, h2, ha, had, h3, h4, h5, h6]
    simp [hL, hn, hc]

theorem upper_nil : upper [] = [] := rfl

theorem splitFunc_concat (xs : List Char) (m : Char) :
    splitFunc (xs ++ [m]) =
      if m = 'H' ∨ m = 'L' ∨ m = 'A' then (xs, [m]) else (xs ++ [m], []) := by
  induction xs with
  | nil => simp [splitFunc]
  | cons x xs ih =>
    cases xs with
    | nil =>
      simp only [List.nil_append, List.cons_append, splitFunc]
      split <;> simp
    | cons y ys =>
      simp only [List.cons_append] at ih ⊢
      rw [splitFunc, ih]
      split <;> simp

theorem splitFunc_no_modifier (ys : List Char) (hys : ys ≠ [])
    (hlast : ys.getLast? ∉ ([some 'H', some 'L', some 'A'] : List (Option Char))) :
    splitFunc ys = (ys, []) := by
  rcases List.eq_nil_or_concat ys with rfl | ⟨zs, c, rfl⟩
  · exact absurd rfl hys
  · rw [List.concat_eq_append] at hlast ⊢
    have hnot : ¬(c = 'H' ∨ c = 'L' ∨ c = 'A') := by
      intro h
      rw [List.getLast?_concat] at hlast
      rcases h with h | h | h <;> simp [h] at hlast
    rw [splitFunc_concat, if_neg hnot]

/-- C1 counterexample input check: the claim quantifies over all component sets
with function letters and an optional modifier; for function `"SH"` with empty
modifier the decoder reclassifies the trailing `H` as a modifier. -/
theorem generate_decode_modifier_collision :
    (decode_tag (generate_tag ("200".data) ("P".data) ("SH".data) ("01".data) [] [])).map
        (fun t => (t.function, t.modifier))
      = some ("S".data, "H".data)
    ∧ ("S".data, "H".data) ≠ (upper ("SH".data), upper ([] : List Char)) := by
  constructor
  · decide
  · decide

/-- Round trip of `generate_tag` and `decode_tag` for well-formed component
sets whose function string, when the modifier is empty, is non-empty and does
not end in one of the modifier letters `H`, `L`, `A`. -/
theorem decode_generate_roundtrip
    (area v fn lp md sfx : List Char)
    (ha : area.length = 3) (had : area.all isDigitC = true)
    (hv : ∃ c, v = [c] ∧ isUpperA c.toUpper = true)
    (hf : fn.all (fun c => isUpperA c.toUpper) = true)
    (hm : upper md = [] ∨ upper md = ['H'] ∨ upper md = ['L'] ∨ upper md = ['A'])
    (hl : lp ≠ []) (hld : lp.all isDigitC = true)
    (hsfx : sfx = [] ∨ ∃ c, sfx = [c] ∧ isUpperA c.toUpper = true)
    (hsafe : upper md ≠ [] ∨
      (fn ≠ [] ∧ (upper fn).getLast? ∉ ([some 'H', some 'L', some 'A'] : List (Option Char)))) :
    (decode_tag (generate_tag area v fn lp md sfx)).map
        (fun t => (t.area, t.var, t.function, t.modifier, t.loop_number, t.suffix))
      = some (upper area, upper v, upper fn, upper md, upper lp, upper sfx) := by
  obtain ⟨cv, rfl, hcv⟩ := hv
  have hA : upper area = area := upper_digits had
  have hN : upper lp = lp := upper_digits hld
  have hdashU : Char.toUpper '-' = '-' := by decide
  have hgen : generate_tag area [cv] fn lp md sfx
      = area ++ '-' :: ((cv.toUpper :: (upper fn ++ upper md)) ++ '-' :: (lp ++ upper sfx)) := by
    simp only [generate_tag, upper_append, upper_cons, upper_nil, hdashU, hA, hN,
      List.cons_append, List.append_assoc, List.nil_append]
  have hupgen : upper (generate_tag area [cv] fn lp md sfx)
      = generate_tag area [cv] fn lp md sfx := by
    unfold generate_tag
    exact upper_upper _
  have hfU : (upper fn).all isUpperA = true := by
    simp only [upper, List.all_map]
    simpa [Function.comp] using hf
  have hmU : (upper md).all isUpperA = true := by
    rcases hm with h | h | h | h <;> rw [h] <;> decide
  have hLall : ((cv.toUpper :: (upper fn ++ upper md))).all isUpperA = true := by
    simp [List.all_cons, List.all_append, hcv, hfU, hmU,
      List.all_eq_true.mp hfU, List.all_eq_true.mp hmU]
  have hsU : upper sfx = [] ∨ ∃ c, upper sfx = [c] ∧ isUpperA c = true := by
    rcases hsfx with rfl | ⟨c, rfl, hc⟩
    · exact Or.inl rfl
    · exact Or.inr ⟨c.toUpper, by simp [upper], hc⟩
  have hparse := parseTagRe_spec area (cv.toUpper :: (upper fn ++ upper md)) lp (upper sfx)
    ha had (by simp) hLall hl hld hsU
  have hlen : ¬((cv.toUpper :: (upper fn ++ upper md)).length < 2) := by
    rcases hsafe with h | ⟨h, _⟩
    · have : (upper md).length ≠ 0 := by simpa [List.length_eq_zero] using h
      simp only [List.length_cons, List.length_append]
      omega
    · have : (upper fn).length ≠ 0 := by simpa [upper, List.length_eq_zero] using h
      simp only [List.length_cons, List.length_append]
      omega
  have hsplit : splitFunc (upper fn ++ upper md) = (upper fn, upper md) := by
    rcases hm with h | h | h | h
    · rw [h, List.append_nil]
      rcases hsafe with h' | ⟨h1, h2⟩
      · exact absurd h h'
      · exact splitFunc_no_modifier _ (by simpa [upper, List.map_eq_nil_iff] using h1) h2
    · rw [h, splitFunc_concat, if_pos (Or.inl rfl)]
    · rw [h, splitFunc_concat, if_pos (Or.inr (Or.inl rfl))]
    · rw [h, splitFunc_concat, if_pos (Or.inr (Or.inr rfl))]
  rw [decode_tag, hupgen, hgen, hparse]
  simp only [if_neg hlen, hsplit]
  simp [upper_cons, upper_nil, hA, hN]

/-- Concrete round-trip instance (lowercase inputs, uppercased on decode). -/
theorem decode_generate_roundtrip_witness :
    (decode_tag (generate_tag ("200".data) ("f".data) ("it".data) ("01".data) [] ("a".data))).map
        (fun t => (t.area, t.var, t.function, t.modifier, t.loop_number, t.suffix))
      = some ("200".data, "F".data, "IT".data, [], "01".data, "A".data) := by
  have h := decode_generate_roundtrip ("200".data) ("f".data) ("it".data) ("01".data) []
    ("a".data) (by decide) (by decide) ⟨ 'f', rfl, by decide⟩ (by decide) (Or.inl rfl)
    (by decide) (by decide) (Or.inr ⟨ 'a', rfl, by decide⟩) (Or.inr ⟨by decide, by decide⟩)
  exact h.trans rfl

/-- Tags whose LETTERS group is a single letter are rejected by `decode_tag`
even though they match the surface grammar. -/
theorem decode_single_letter_none (a n s : List Char) (c : Char)
    (ha : a.length = 3) (had : a.all isDigitC = true)
    (hc : isUpperA c = true)
    (hn : n ≠ []) (hnd : n.all isDigitC = true)
    (hs : s = [] ∨ ∃ u, s = [u] ∧ isUpperA u = true) :
    decode_tag (a ++ '-' :: ([c] ++ '-' :: (n ++ s))) = none := by
  have hA : upper a = a := upper_digits had
  have hN : upper n = n := upper_digits hnd
  have hdashU : Char.toUpper '-' = '-' := by decide
  have hS : upper s = s := by
    rcases hs with rfl | ⟨u, rfl, hu⟩
    · rfl
    · simp [upper, toUpper_of_isUpperA hu]
  have hup : upper (a ++ '-' :: ([c] ++ '-' :: (n ++ s))) = a ++ '-' :: ([c] ++ '-' :: (n ++ s)) := by
    simp only [upper_append, upper_cons, upper_nil, hdashU, hA, hN, hS,
      toUpper_of_isUpperA hc]
  have hparse := parseTagRe_spec a [c] n s ha had (by simp) (by simp [hc]) hn hnd hs
  rw [decode_tag, hup, hparse]
  simp

/-- Concrete single-letter rejection: `decode_tag "200-F-01" = none`. -/
theorem decode_single_letter_none_witness : decode_tag ("200-F-01".data) = none := by
  have h := decode_single_letter_none ("200".data) ("01".data) [] 'F'
    (by decide) (by decide) (by decide) (by decide) (by decide) (Or.inl rfl)
  have e : ("200".data ++ '-' :: (['F'] ++ '-' :: ("01".data ++ ([] : List Char))))
      = ("200-F-01".data) := by decide
  rw [e] at h
  exact h

/-- The function `is_local_instrument` rejects the area-prefixed gauge tag `200-PG-01`:
the allow-list check reads the leading dash-separated token (`200`), not the
embedded alphabetic gauge prefix. -/
theorem is_local_area_prefixed_gauge_cex :
    is_local_instrument { tag := some (.dict { full_tag := ("200-PG-01".data) }) } = false := by
  decide

/-- The gauge allow-list of `is_local_instrument` applies to the tag's leading
dash-separated token: `PG-01` is local, `200-PG-01` and `200-FIT-01` are not. -/
theorem is_local_gauge_prefix_evaluations :
    is_local_instrument { tag := some (.dict { full_tag := ("PG-01".data) }) } = true
  ∧ is_local_instrument { tag := some (.dict { full_tag := ("200-PG-01".data) }) } = false
  ∧ is_local_instrument { tag := some (.dict { full_tag := ("200-FIT-01".data) }) } = false := by
  refine ⟨by decide, by decide, by decide⟩

/-- Pattern resolution: `("P","VFD")` gives `pump_vfd`; `MOV` falls back to its
`DEFAULT` entry for any unknown non-empty feeder type; an unknown equipment
code gives no pattern; a feeder type missing from a table without `DEFAULT`
gives no pattern. -/
theorem pattern_resolver_tables :
    get_pattern_for_equipment { tag := ("200-P-01".data), feeder_type := ("VFD".data) }
      = (some ("pump_vfd".data), some ("VFD".data))
  ∧ get_pattern_for_equipment { tag := ("200-MOV-01".data), feeder_type := ("UNKNOWN".data) }
      = (some ("valve_onoff_electric".data), some ("UNKNOWN".data))
  ∧ get_pattern_for_equipment { tag := ("200-ZZ-01".data), feeder_type := ("DOL".data) }
      = (none, none)
  ∧ (∀ ft : List Char, trim (upper ft) ≠ [] →
      (get_pattern_for_equipment { tag := ("200-MOV-01".data), feeder_type := ft }).1
        = some ("valve_onoff_electric".data))
  ∧ (∀ ft : List Char, PUMP_PATTERNS (trim (upper ft)) = none →
      (get_pattern_for_equipment { tag := ("200-P-01".data), feeder_type := ft }).1 = none) := by
  refine ⟨by decide, by decide, by decide, ?_, ?_⟩
  · intro ft hft
    have he : extract_equipment_type ("200-MOV-01".data) = ("MOV".data) := by decide
    have hm : EQUIPMENT_PATTERN_MAP ("MOV".data) = some MOV_TABLE := rfl
    simp only [get_pattern_for_equipment, if_neg hft, he, hm]
    rw [if_neg (by decide : ¬(("MOV".data : List Char) = []))]
    by_cases hd : trim (upper ft) = ("DEFAULT".data)
    · simp [MOV_TABLE, oget, hd]
    · simp [MOV_TABLE, oget, hd]
  · intro ft hp
    by_cases hft : trim (upper ft) = []
    · simp [get_pattern_for_equipment, hft]
    · have he : extract_equipment_type ("200-P-01".data) = ("P".data) := by decide
      have hm : EQUIPMENT_PATTERN_MAP ("P".data) = some PUMP_PATTERNS := rfl
      have hdef : PUMP_PATTERNS ("DEFAULT".data) = none := by decide
      simp only [get_pattern_for_equipment, if_neg hft, he, hm]
      rw [if_neg (by decide : ¬(("P".data : List Char) = []))]
      simp [hp, hdef, oget]

/-- Concrete DEFAULT-fallback and no-DEFAULT-miss instances of
`pattern_resolver_tables`. -/
theorem pattern_resolver_tables_witness :
    (get_pattern_for_equipment { tag := ("200-MOV-01".data), feeder_type := (" unknown ".data) }).1
      = some ("valve_onoff_electric".data)
  ∧ (get_pattern_for_equipment { tag := ("200-P-01".data), feeder_type := ("MYSTERY".data) }).1
      = none :=
  ⟨pattern_resolver_tables.2.2.2.1 (" unknown ".data) (by decide),
   pattern_resolver_tables.2.2.2.2 ("MYSTERY".data) (by decide)⟩

/-- The sync validator's reconstruction is not the `generate_tag` grammar: a
tag equal to its `generate_tag` rendering is still flagged, because the sync
check rebuilds `VARIABLE+FUNCTION+MODIFIER-AREA-LOOP` (letters first). -/
theorem tag_consistency_not_generate_grammar_cex :
    validate_tag_consistency
        [{ tag := some (.dict { full_tag := ("200-FIT-01".data)
                                var := ("F".data)
                                function := ("IT".data)
                                area := ("200".data)
                                loop_number := ("01".data) }) }]
      = [("Tag mismatch: 200-FIT-01 vs computed FIT-200-01".data)]
  ∧ generate_tag ("200".data) ("F".data) ("IT".data) ("01".data) [] [] = ("200-FIT-01".data) := by
  refine ⟨by decide, by decide⟩

/-- The check `validate_tag_consistency` flags exactly the instruments whose structured,
non-empty `full_tag` differs up to case from the
`VARIABLE+FUNCTION+MODIFIER-AREA-LOOP(-SUFFIX)` reconstruction. -/
theorem validate_tag_consistency_refinement (instruments : List Instrument) :
    validate_tag_consistency instruments = instruments.filterMap tagConsistencyFinding := by
  have key : ∀ (l : List Instrument) (errors : List (List Char)),
      l.foldl (fun errors inst =>
        match inst.tag with
        | some (.other _) => errors
        | some (.dict t) =>
          if t.full_tag ≠ [] then
            let expected := reconstructExpected t
            if upper t.full_tag ≠ upper expected then
              errors ++ [tagMismatchMsg t.full_tag expected]
            else errors
          else errors
        | none => errors) errors
      = errors ++ l.filterMap tagConsistencyFinding := by
    intro l
    induction l with
    | nil => simp
    | cons i rest ih =>
      intro errors
      rw [List.foldl_cons, ih, List.filterMap_cons]
      match hi : i.tag with
      | some (.other s) => simp [tagConsistencyFinding, hi]
      | none => simp [tagConsistencyFinding, hi]
      | some (.dict t) =>
        simp only [tagConsistencyFinding, hi]
        by_cases h1 : t.full_tag = []
        · simp [h1]
        · by_cases h2 : upper t.full_tag = upper (reconstructExpected t)
          · simp [h1, h2]
          · simp [h1, h2]
  simpa [validate_tag_consistency] using key instruments []

theorem gisGo_length (b f : List Char) :
    ∀ (sigs : List SigTemplate) (n : Nat), (gisGo b f sigs n).length = sigs.length := by
  intro sigs
  induction sigs with
  | nil => intro n; rfl
  | cons s rest ih => intro n; simp [gisGo, ih (n + 1)]

theorem gisGo_get (b f : List Char) :
    ∀ (sigs : List SigTemplate) (n i : Nat) (h1 : i < (gisGo b f sigs n).length)
      (h2 : i < sigs.length),
      (gisGo b f sigs n).get ⟨i, h1⟩ = genSignal (sigs.get ⟨i, h2⟩) b f (n + i) := by
  intro sigs
  induction sigs with
  | nil => intro n i h1 h2; exact absurd h2 (by simp)
  | cons s rest ih =>
    intro n i h1 h2
    cases i with
    | zero => simp [gisGo]
    | succ j =>
      have h1' : j < (gisGo b f rest (n + 1)).length := by
        simpa [gisGo] using h1
      have h2' : j < rest.length := by simpa using h2
      have := ih (n + 1) j h1' h2'
      simp only [gisGo, List.get_cons_succ, List.length_cons]
      rw [this]
      congr 1
      omega

/-- The generator `generate_io_signals` yields exactly one signal per template, in template
order, with the documented defaults, suffix-composed tags, the feeder label
attached, and `pattern_source` left unset. -/
theorem generate_io_signals_spec (pattern : Pattern) (base_tag feeder_type : List Char)
    (idStart : Nat) :
    (generate_io_signals pattern base_tag feeder_type idStart).length = pattern.signals.length
  ∧ ∀ (i : Nat) (h1 : i < (generate_io_signals pattern base_tag feeder_type idStart).length)
      (h2 : i < pattern.signals.length),
      ((generate_io_signals pattern base_tag feeder_type idStart).get ⟨i, h1⟩).signal_function
          = (pattern.signals.get ⟨i, h2⟩).function.getD ("Status".data)
      ∧ ((generate_io_signals pattern base_tag feeder_type idStart).get ⟨i, h1⟩).io_type
          = (pattern.signals.get ⟨i, h2⟩).io_type.getD ("DI".data)
      ∧ ((generate_io_signals pattern base_tag feeder_type idStart).get ⟨i, h1⟩).signal_type
          = (pattern.signals.get ⟨i, h2⟩).signal_type.getD ("24V DC".data)
      ∧ ((generate_io_signals pattern base_tag feeder_type idStart).get ⟨i, h1⟩).plc_tag
          = (if (pattern.signals.get ⟨i, h2⟩).suffix.getD [] ≠ [] then
              base_tag ++ '-' :: (pattern.signals.get ⟨i, h2⟩).suffix.getD []
            else base_tag)
      ∧ ((generate_io_signals pattern base_tag feeder_type idStart).get ⟨i, h1⟩).field_tag
          = (if (pattern.signals.get ⟨i, h2⟩).suffix.getD [] ≠ [] then
              base_tag ++ '-' :: (pattern.signals.get ⟨i, h2⟩).suffix.getD []
            else base_tag)
      ∧ ((generate_io_signals pattern base_tag feeder_type idStart).get ⟨i, h1⟩).electrical_feeder_type
          = feeder_type
      ∧ ((generate_io_signals pattern base_tag feeder_type idStart).get ⟨i, h1⟩).pattern_source
          = none
      ∧ ((generate_io_signals pattern base_tag feeder_type idStart).get ⟨i, h1⟩).io_point_id
          = idStart + i := by
  constructor
  · exact gisGo_length base_tag feeder_type pattern.signals idStart
  · intro i h1 h2
    have hg := gisGo_get base_tag feeder_type pattern.signals idStart i
      (by simpa [generate_io_signals] using h1) h2
    simp only [generate_io_signals]
    rw [hg]
    simp [genSignal]

theorem oget_none_right {α : Type} (a : Option α) : oget a none = a := by
  cases a <;> rfl

theorem oget_assoc {α : Type} (a b c : Option α) :
    oget (oget a b) c = oget a (oget b c) := by
  cases a <;> rfl

theorem dictGet?_append {β : Type} (m m' : List (List Char × β)) (k : List Char) :
    dictGet? (m ++ m') k = oget (dictGet? m k) (dictGet? m' k) := by
  induction m with
  | nil => rfl
  | cons p rest ih =>
    rw [List.cons_append]
    by_cases h : p.1 = k
    · simp [dictGet?, h, oget]
    · simp [dictGet?, h, ih]

theorem dictGet?_insert {β : Type} (m : List (List Char × β)) (k' : List Char) (v : β)
    (k : List Char) :
    dictGet? (dictInsert m k' v) k = if k' = k then some v else dictGet? m k := by
  induction m with
  | nil => simp [dictInsert, dictGet?]
  | cons p rest ih =>
    obtain ⟨pk, pv⟩ := p
    by_cases h : pk = k'
    · subst h
      by_cases h2 : pk = k
      · subst h2
        simp [dictInsert, dictGet?]
      · simp [dictInsert, dictGet?, h2]
    · by_cases h2 : pk = k
      · subst h2
        have hk : ¬(k' = pk) := fun hh => h hh.symm
        simp [dictInsert, dictGet?, h, hk]
      · simp [dictInsert, dictGet?, h, h2, ih]

theorem dictGet?_setdefault {β : Type} (m : List (List Char × β)) (k' : List Char) (v : β)
    (k : List Char) :
    dictGet? (dictSetdefault m k' v) k
      = oget (dictGet? m k) (if k' = k then some v else none) := by
  unfold dictSetdefault
  cases h : dictGet? m k' with
  | some w =>
    by_cases hk : k' = k
    · subst hk
      rw [h]
      simp [oget]
    · rw [if_neg hk, oget_none_right]
  | none =>
    rw [dictGet?_append]
    congr 1

theorem dictGet?_foldl_setdefault {β : Type} (v : β) (ks : List (List Char)) :
    ∀ (m : List (List Char × β)) (k : List Char),
      dictGet? (ks.foldl (fun acc k' => dictSetdefault acc k' v) m) k
        = oget (dictGet? m k) (if k ∈ ks then some v else none) := by
  induction ks with
  | nil => intro m k; simp [oget_none_right]
  | cons k0 ks ih =>
    intro m k
    rw [List.foldl_cons, ih, dictGet?_setdefault, oget_assoc]
    congr 1
    by_cases h0 : k0 = k
    · simp [h0, oget]
    · have hk : ¬(k = k0) := fun hh => h0 hh.symm
      by_cases h1 : k ∈ ks <;> simp [h0, h1, hk, oget]

theorem oget_if_mem_append {β : Type} (v : β) (a b : List (List Char)) (k : List Char) :
    oget (if k ∈ a then some v else none) (if k ∈ b then some v else none)
      = if k ∈ a ++ b then some v else none := by
  by_cases ha : k ∈ a
  · simp [ha, oget]
  · by_cases hb : k ∈ b <;> simp [ha, hb, oget]

theorem dictGet?_registerEquipment (m : List (List Char × Equipment)) (eq : Equipment)
    (k : List Char) :
    dictGet? (registerEquipment m eq) k
      = if eq.tag = [] then dictGet? m k
        else if eq.tag = k then some eq
        else oget (dictGet? m k) (if k ∈ derivedKeys eq then some eq else none) := by
  by_cases h0 : eq.tag = []
  · simp [registerEquipment, h0]
  · simp only [registerEquipment, if_neg h0]
    rw [dictGet?_foldl_setdefault, dictGet?_foldl_setdefault, dictGet?_foldl_setdefault,
      dictGet?_insert, oget_assoc, oget_assoc, oget_if_mem_append, oget_if_mem_append]
    by_cases h1 : eq.tag = k
    · simp [h1, derivedKeys, oget, List.append_assoc]
    · simp [h1, derivedKeys, oget, List.append_assoc]

theorem getLast?_cons_oget {α : Type} : ∀ (l : List α) (a : α),
    (a :: l).getLast? = oget l.getLast? (some a)
  | [], _ => rfl
  | b :: l', a => by
    rw [List.getLast?_cons_cons, getLast?_cons_oget l' b]
    cases h : l'.getLast? <;> simp [oget]

theorem lastRawBinding_cons (e : Equipment) (L : List Equipment) (k : List Char) :
    lastRawBinding (e :: L) k
      = oget (lastRawBinding L k) (if e.tag = k ∧ e.tag ≠ [] then some e else none) := by
  unfold lastRawBinding
  by_cases hp : e.tag = k ∧ e.tag ≠ []
  · rw [List.filter_cons_of_pos (by simpa using hp), getLast?_cons_oget, if_pos hp]
  · rw [List.filter_cons_of_neg (by simpa using hp), if_neg hp, oget_none_right]

theorem firstDerivedBinding_cons (e : Equipment) (L : List Equipment) (k : List Char) :
    firstDerivedBinding (e :: L) k
      = if e.tag ≠ [] ∧ k ∈ derivedKeys e then some e else firstDerivedBinding L k := by
  unfold firstDerivedBinding
  by_cases hp : e.tag ≠ [] ∧ k ∈ derivedKeys e
  · rw [List.filter_cons_of_pos (by simpa using hp), if_pos hp]
    rfl
  · rw [List.filter_cons_of_neg (by simpa using hp), if_neg hp]

theorem buildEquipmentMap_general :
    ∀ (L : List Equipment) (m : List (List Char × Equipment)) (k : List Char),
      dictGet? (L.foldl registerEquipment m) k
        = oget (lastRawBinding L k) (oget (dictGet? m k) (firstDerivedBinding L k)) := by
  intro L
  induction L with
  | nil =>
    intro m k
    cases h : dictGet? m k <;> simp [lastRawBinding, firstDerivedBinding, oget, h]
  | cons e L ih =>
    intro m k
    rw [List.foldl_cons, ih, lastRawBinding_cons, firstDerivedBinding_cons,
      dictGet?_registerEquipment]
    by_cases h0 : e.tag = []
    · simp [h0, oget_none_right]
    · by_cases h1 : e.tag = k
      · have hkne : ¬(k = []) := h1 ▸ h0
        cases hL : lastRawBinding L k <;> simp [h0, h1, hkne, oget, hL]
      · by_cases h2 : k ∈ derivedKeys e <;>
          cases hL : lastRawBinding L k <;>
          cases hG : dictGet? m k <;>
          simp [h0, h1, h2, oget, hL, hG]

/-- The alias index stores, for every key, the last equipment whose raw tag
equals the key (raw registration is a plain overwrite) and otherwise the first
equipment that registers the key through a derived (setdefault) route. -/
theorem buildEquipmentMap_binding (L : List Equipment) (k : List Char) :
    dictGet? (buildEquipmentMap L) k
      = oget (lastRawBinding L k) (firstDerivedBinding L k) := by
  have h := buildEquipmentMap_general L [] k
  simpa [buildEquipmentMap, dictGet?, oget] using h

/-- The raw-tag route of the alias index overwrites: key `100-P-02` is first
registered by the paired expansion of `100-P-01/02`, yet the stored equipment
is the later entry whose raw tag is `100-P-02`. -/
theorem equipment_map_raw_overwrite_cex :
    dictGet? (buildEquipmentMap
        [{ tag := ("100-P-01/02".data) }, { tag := ("100-P-02".data) }]) ("100-P-02".data)
      = some { tag := ("100-P-02".data) }
  ∧ ("100-P-02".data) ∈ derivedKeys { tag := ("100-P-01/02".data) }
  ∧ ({ tag := ("100-P-01/02".data) } : Equipment) ≠ { tag := ("100-P-02".data) } := by
  refine ⟨by decide, by decide, by decide⟩

/-- Sibling aliases are synthesized exactly when the parsed quantity is at
least 2 and the upper-cased quantity note contains the letter `S`; when
triggered for a `prefix-code-sequence` tag, `quantity - 1` consecutive
zero-padded sibling keys above the base are registered for the equipment. -/
theorem sibling_alias_synthesis (eq : Equipment) :
    (siblingKeys eq ≠ [] ↔
      (2 ≤ eq.quantity.getD 1 ∧ 'S' ∈ upper eq.quantity_note ∧
       (parseSiblingTag eq.tag).isSome))
  ∧ (∀ (q : Int) (pfx seq : List Char), eq.quantity = some q → 2 ≤ q →
      'S' ∈ upper eq.quantity_note → parseSiblingTag eq.tag = some (pfx, seq) →
      (siblingKeys eq).length = q.toNat - 1
      ∧ ∀ o : Nat, o < q.toNat - 1 →
          (pfx ++ zfill (natToString (digitsToNat seq + (o + 1))) seq.length) ∈ siblingKeys eq
          ∧ dictGet? (buildEquipmentMap [eq])
              (pfx ++ zfill (natToString (digitsToNat seq + (o + 1))) seq.length)
            = some eq) := by
  constructor
  · constructor
    · intro hne
      by_cases hc : 2 ≤ eq.quantity.getD 1 ∧ 'S' ∈ upper eq.quantity_note
      · refine ⟨hc.1, hc.2, ?_⟩
        cases hp : parseSiblingTag eq.tag with
        | some pr => rfl
        | none => exact absurd (by simp [siblingKeys, hc, hp]) hne
      · exact absurd (by simp [siblingKeys, hc]) hne
    · rintro ⟨hq, hS, hP⟩
      obtain ⟨⟨pfx, seq⟩, hp⟩ := Option.isSome_iff_exists.mp hP
      have h2 : 2 ≤ (eq.quantity.getD 1).toNat := by omega
      simp only [siblingKeys, hp, if_pos (And.intro hq hS)]
      simp only [ne_eq, List.map_eq_nil_iff, List.range_eq_nil]
      omega
  · intro q pfx seq hquan hq hS hp
    have hkeys : siblingKeys eq
        = (List.range (q.toNat - 1)).map
            (fun o => pfx ++ zfill (natToString (digitsToNat seq + (o + 1))) seq.length) := by
      simp [siblingKeys, hquan, hq, hS, hp]
    have htag : eq.tag ≠ [] := by
      intro h
      rw [h] at hp
      have hnone : parseSiblingTag ([] : List Char) = none := by decide
      rw [hnone] at hp
      cases hp
    constructor
    · simp [hkeys]
    · intro o ho
      have hmem : (pfx ++ zfill (natToString (digitsToNat seq + (o + 1))) seq.length)
          ∈ siblingKeys eq := by
        rw [hkeys]
        exact List.mem_map.mpr ⟨o, List.mem_range.mpr ho, rfl⟩
      refine ⟨hmem, ?_⟩
      have hder : (pfx ++ zfill (natToString (digitsToNat seq + (o + 1))) seq.length)
          ∈ derivedKeys eq := by
        unfold derivedKeys
        exact List.mem_append_right _ hmem
      have hb : buildEquipmentMap [eq] = registerEquipment [] eq := rfl
      rw [hb, dictGet?_registerEquipment, if_neg htag]
      by_cases hk : eq.tag = pfx ++ zfill (natToString (digitsToNat seq + (o + 1))) seq.length
      · simp [hk]
      · simp [hk, hder, dictGet?, oget]

/-- Concrete sibling synthesis: tag `102-G-01`, quantity 3, note `1W + 2S`
registers `102-G-02` (and one further sibling) for the same equipment. -/
theorem sibling_alias_synthesis_witness :
    (siblingKeys { tag := ("102-G-01".data), quantity := some 3, quantity_note := ("1W + 2S".data) }).length = 2
  ∧ ("102-G-02".data) ∈ siblingKeys { tag := ("102-G-01".data), quantity := some 3, quantity_note := ("1W + 2S".data) }
  ∧ dictGet? (buildEquipmentMap [{ tag := ("102-G-01".data), quantity := some 3, quantity_note := ("1W + 2S".data) }]) ("102-G-02".data)
      = some { tag := ("102-G-01".data), quantity := some 3, quantity_note := ("1W + 2S".data) } := by
  obtain ⟨hl, hm⟩ := (sibling_alias_synthesis
    { tag := ("102-G-01".data), quantity := some 3, quantity_note := ("1W + 2S".data) }).2
    3 ("102-G-".data) ("01".data) rfl (by decide) (by decide) (by decide)
  obtain ⟨h1, h2⟩ := hm 0 (by decide)
  have e : (("102-G-".data) ++ zfill (natToString (digitsToNat ("01".data) + (0 + 1)))
      ("01".data).length) = ("102-G-02".data) := by decide
  exact ⟨hl.trans (by decide), e ▸ h1, e ▸ h2⟩

theorem motorStep_instruments (pats : List (List Char × Pattern)) (ex : List (List Char))
    (st : MotorGenState) (eq : Equipment) :
    (motorStep pats ex st eq).instruments = st.instruments
  ∨ ∃ ni : Instrument, (motorStep pats ex st eq).instruments = st.instruments ++ [ni]
      ∧ ni.provenance = some { source_type := ("auto_generated".data), extraction_source := ("motor_instrument_gen".data) } := by
  simp only [motorStep]
  split
  · exact Or.inl rfl
  · split
    · exact Or.inl rfl
    · split
      · exact Or.inl rfl
      · split
        · exact Or.inl rfl
        · split
          · exact Or.inl rfl
          · exact Or.inr ⟨_, rfl, rfl⟩

theorem gmi_appended_marked (pats : List (List Char × Pattern)) (insts : List Instrument)
    (eqs : List Equipment) (n : Nat) :
    (generate_motor_instruments eqs insts pats n).instruments.take insts.length = insts
  ∧ ∀ inst ∈ (generate_motor_instruments eqs insts pats n).instruments.drop insts.length,
      inst.provenance = some { source_type := ("auto_generated".data), extraction_source := ("motor_instrument_gen".data) } := by
  have key : ∀ (eqs' : List Equipment) (st : MotorGenState),
      st.instruments.take insts.length = insts →
      (∀ i ∈ st.instruments.drop insts.length,
        i.provenance = some { source_type := ("auto_generated".data), extraction_source := ("motor_instrument_gen".data) }) →
      (eqs'.foldl (motorStep pats (existingMotorTags insts)) st).instruments.take insts.length
          = insts
      ∧ ∀ i ∈ (eqs'.foldl (motorStep pats (existingMotorTags insts)) st).instruments.drop
            insts.length,
          i.provenance = some { source_type := ("auto_generated".data), extraction_source := ("motor_instrument_gen".data) } := by
    intro eqs'
    induction eqs' with
    | nil => intro st h1 h2; exact ⟨h1, h2⟩
    | cons e eqs' ih =>
      intro st h1 h2
      rw [List.foldl_cons]
      apply ih
      · rcases motorStep_instruments pats (existingMotorTags insts) st e with h | ⟨ni, h, _⟩
        · rw [h]; exact h1
        · have hle : insts.length ≤ st.instruments.length := by
            have := congrArg List.length h1
            simp only [List.length_take] at this
            omega
          rw [h, List.take_append_eq_append_take, Nat.sub_eq_zero_of_le hle,
            List.take_zero, List.append_nil]
          exact h1
      · rcases motorStep_instruments pats (existingMotorTags insts) st e with h | ⟨ni, h, hm⟩
        · rw [h]; exact h2
        · have hle : insts.length ≤ st.instruments.length := by
            have := congrArg List.length h1
            simp only [List.length_take] at this
            omega
          rw [h, List.drop_append_eq_append_drop, Nat.sub_eq_zero_of_le hle, List.drop_zero]
          intro i hi
          rcases List.mem_append.mp hi with hi | hi
          · exact h2 i hi
          · rw [List.mem_singleton.mp hi]
            exact hm
  exact key eqs { instruments := insts, generated := 0, warnings := [], nextId := n }
    (List.take_length insts) (by simp)

theorem phase2Step_marked (m : List (List Char × Equipment))
    (pats : List (List Char × Pattern)) (inst : Instrument) (n : Nat)
    (h : inst.provenance.map Provenance.extraction_source
        = some ("motor_instrument_gen".data)) :
    phase2Step m pats inst n = (inst, n, []) := by
  unfold phase2Step
  rw [if_pos h]

theorem phase2_all_marked (m : List (List Char × Equipment))
    (pats : List (List Char × Pattern)) :
    ∀ (insts : List Instrument),
      (∀ i ∈ insts, i.provenance.map Provenance.extraction_source
        = some ("motor_instrument_gen".data)) →
      ∀ n, phase2 m pats insts n = (insts, n, []) := by
  intro insts
  induction insts with
  | nil => intro _ n; rfl
  | cons i rest ih =>
    intro h n
    have hi := h i (by simp)
    have hrest := ih (fun j hj => h j (by simp [hj]))
    simp only [phase2, phase2Step_marked m pats i n hi, hrest n]
    rfl

theorem phase2_append (m : List (List Char × Equipment))
    (pats : List (List Char × Pattern)) :
    ∀ (xs ys : List Instrument) (n : Nat),
      phase2 m pats (xs ++ ys) n
        = ((phase2 m pats xs n).1 ++ (phase2 m pats ys (phase2 m pats xs n).2.1).1,
           (phase2 m pats ys (phase2 m pats xs n).2.1).2.1,
           (phase2 m pats xs n).2.2 ++ (phase2 m pats ys (phase2 m pats xs n).2.1).2.2) := by
  intro xs
  induction xs with
  | nil => intro ys n; simp [phase2]
  | cons x xs ih =>
    intro ys n
    simp only [List.cons_append, phase2]
    simp only [List.append_eq]
    rw [ih]
    simp [List.append_assoc]

theorem phase2_length (m : List (List Char × Equipment))
    (pats : List (List Char × Pattern)) :
    ∀ (insts : List Instrument) (n : Nat),
      (phase2 m pats insts n).1.length = insts.length := by
  intro insts
  induction insts with
  | nil => intro n; rfl
  | cons i rest ih => intro n; simp [phase2, ih]

/-- Every instrument appended by the motor-synthesis phase carries the
`auto_generated`/`motor_instrument_gen` provenance marker; the Phase-2 step
returns any so-marked instrument unchanged (no signals, no warnings, no
identifier consumed); and in the full pipeline the instruments appended by
Phase 1 come out of Phase 2 exactly as synthesized. -/
theorem motor_provenance_and_phase2_frame :
    (∀ (eqs : List Equipment) (insts : List Instrument)
        (pats : List (List Char × Pattern)) (n : Nat),
      (generate_motor_instruments eqs insts pats n).instruments.take insts.length = insts
      ∧ ∀ inst ∈ (generate_motor_instruments eqs insts pats n).instruments.drop insts.length,
          inst.provenance = some { source_type := ("auto_generated".data), extraction_source := ("motor_instrument_gen".data) })
  ∧ (∀ (m : List (List Char × Equipment)) (pats : List (List Char × Pattern))
        (inst : Instrument) (n : Nat),
      inst.provenance.map Provenance.extraction_source = some ("motor_instrument_gen".data) →
      phase2Step m pats inst n = (inst, n, []))
  ∧ (∀ (db : List Instrument) (eqs : List Equipment)
        (pats : List (List Char × Pattern)) (n : Nat),
      (apply_patterns db eqs pats n).1.drop (dedupInstruments db).length
        = (generate_motor_instruments eqs (dedupInstruments db) pats n).instruments.drop
            (dedupInstruments db).length) := by
  refine ⟨fun eqs insts pats n => gmi_appended_marked pats insts eqs n,
    phase2Step_marked, ?_⟩
  intro db eqs pats n
  have hgmi := gmi_appended_marked pats (dedupInstruments db) eqs n
  set mg := generate_motor_instruments eqs (dedupInstruments db) pats n with hmg
  have hsplit : mg.instruments
      = dedupInstruments db ++ mg.instruments.drop (dedupInstruments db).length := by
    conv_lhs => rw [← List.take_append_drop (dedupInstruments db).length mg.instruments]
    rw [hgmi.1]
  have hmarked : ∀ i ∈ mg.instruments.drop (dedupInstruments db).length,
      i.provenance.map Provenance.extraction_source = some ("motor_instrument_gen".data) := by
    intro i hi
    rw [hgmi.2 i hi]
    rfl
  show (phase2 (buildEquipmentMap eqs) pats mg.instruments mg.nextId).1.drop
      (dedupInstruments db).length = mg.instruments.drop (dedupInstruments db).length
  conv_lhs => rw [hsplit]
  rw [phase2_append, phase2_all_marked _ _ _ hmarked]
  exact List.drop_left' (phase2_length _ _ _ _)

/-- Concrete instance: the motor instrument synthesized for `300-P-01` (VFD,
empty-template pattern) carries the provenance marker and passes Phase 2
untouched. -/
theorem motor_provenance_and_phase2_frame_witness :
    ({ instrument_id := 0
       equipment_tag := some ("300-P-01".data)
       instrument_type := some ("Motor Control".data)
       tag := some (.dict { full_tag := ("300-P-01-M".data), function := ("M".data), functions := [("M".data)], suffix := ("M".data) })
       service_description := ("Motor control for 300-P-01".data)
       io_signals := []
       primary_signal_type := none
       provenance := some { source_type := ("auto_generated".data), extraction_source := ("motor_instrument_gen".data) } } : Instrument).provenance
      = some { source_type := ("auto_generated".data), extraction_source := ("motor_instrument_gen".data) }
  ∧ phase2Step [] []
      { instrument_id := 0
        equipment_tag := some ("300-P-01".data)
        instrument_type := some ("Motor Control".data)
        tag := some (.dict { full_tag := ("300-P-01-M".data), function := ("M".data), functions := [("M".data)], suffix := ("M".data) })
        service_description := ("Motor control for 300-P-01".data)
        io_signals := []
        primary_signal_type := none
        provenance := some { source_type := ("auto_generated".data), extraction_source := ("motor_instrument_gen".data) } } 7
      = ({ instrument_id := 0
           equipment_tag := some ("300-P-01".data)
           instrument_type := some ("Motor Control".data)
           tag := some (.dict { full_tag := ("300-P-01-M".data), function := ("M".data), functions := [("M".data)], suffix := ("M".data) })
           service_description := ("Motor control for 300-P-01".data)
           io_signals := []
           primary_signal_type := none
           provenance := some { source_type := ("auto_generated".data), extraction_source := ("motor_instrument_gen".data) } }, 7, []) := by
  refine ⟨(motor_provenance_and_phase2_frame.1
      [{ tag := ("300-P-01".data), feeder_type := ("VFD".data) }] []
      [(("pump_vfd".data), { signals := [] })] 0).2 _ (by decide),
    motor_provenance_and_phase2_frame.2.1 [] [] _ 7 (by decide)⟩

theorem takeWhile_append_stop {p : Char → Bool} (c : Char) (hc : p c = false) :
    ∀ (a r : List Char), List.takeWhile p (a ++ c :: r) = List.takeWhile p a := by
  intro a r
  induction a with
  | nil => simp [List.takeWhile_cons, hc]
  | cons x a ih =>
    by_cases hx : p x
    · simp [List.takeWhile_cons, hx, ih]
    · simp [List.takeWhile_cons, hx]

theorem dropWhile_append_stop {p : Char → Bool} (c : Char) (hc : p c = false) :
    ∀ (a r : List Char), List.dropWhile p (a ++ c :: r) = List.dropWhile p a ++ c :: r := by
  intro a r
  induction a with
  | nil => simp [List.dropWhile_cons, hc]
  | cons x a ih =>
    by_cases hx : p x
    · simp [List.dropWhile_cons, hx, ih]
    · simp [List.dropWhile_cons, hx]

theorem matchLongTail_append_slash (s1 r : List Char) :
    matchLongTail (s1 ++ '/' :: r) = matchLongTail s1 := by
  have hd : isDigitC '/' = false := by decide
  have hu : isUpperA '/' = false := by decide
  unfold matchLongTail
  rw [takeWhile_append_stop '/' hd, dropWhile_append_stop '/' hd]
  by_cases hlen : (s1.takeWhile isDigitC).length = 3 ∨ (s1.takeWhile isDigitC).length = 4
  · rw [if_pos hlen, if_pos hlen]
    cases hr1 : s1.dropWhile isDigitC with
    | nil => simp
    | cons c1 r2 =>
      by_cases hc1 : c1 = '-'
      · subst hc1
        simp only [List.cons_append]
        rw [takeWhile_append_stop '/' hu, dropWhile_append_stop '/' hu]
        by_cases hls : r2.takeWhile isUpperA = []
        · rw [if_pos hls, if_pos hls]
        · rw [if_neg hls, if_neg hls]
          cases hr3 : r2.dropWhile isUpperA with
          | nil => simp
          | cons c2 r4 =>
            by_cases hc2 : c2 = '-'
            · subst hc2
              simp only [List.cons_append]
              cases r4 with
              | nil => simp [hd]
              | cons d t => simp
            · cases c2 <;> simp_all
      · cases c1 <;> simp_all
  · rw [if_neg hlen, if_neg hlen]

theorem matchLongForm_append_slash (p r : List Char) :
    matchLongForm (p ++ '/' :: r) = matchLongForm p := by
  unfold matchLongForm
  cases p with
  | nil =>
    simp only [List.nil_append]
    rw [if_neg (by decide : ¬(isUpperA '/' = true))]
    exact matchLongTail_append_slash [] r
  | cons c p' =>
    simp only [List.cons_append]
    by_cases hc : isUpperA c
    · rw [if_pos hc, if_pos hc]
      exact matchLongTail_append_slash p' r
    · rw [if_neg hc, if_neg hc]
      exact matchLongTail_append_slash (c :: p') r

theorem matchShortForm_append_slash (p r : List Char) :
    matchShortForm (p ++ '/' :: r) = matchShortForm p := by
  have hd : isDigitC '/' = false := by decide
  have hu : isUpperA '/' = false := by decide
  unfold matchShortForm
  rw [takeWhile_append_stop '/' hu, dropWhile_append_stop '/' hu]
  by_cases hlen : 1 ≤ (p.takeWhile isUpperA).length ∧ (p.takeWhile isUpperA).length ≤ 5
  · rw [if_pos hlen, if_pos hlen]
    cases hr1 : p.dropWhile isUpperA with
    | nil => simp
    | cons c1 r2 =>
      by_cases hc1 : c1 = '-'
      · subst hc1
        simp only [List.cons_append]
        cases r2 with
        | nil => simp [hd]
        | cons d t => simp
      · cases c1 <;> simp_all
  · rw [if_neg hlen, if_neg hlen]

theorem extract_append_slash (p r : List Char) :
    extract_equipment_type (p ++ '/' :: r) = extract_equipment_type p := by
  unfold extract_equipment_type
  rw [matchLongForm_append_slash, matchShortForm_append_slash]

theorem lazyGo_decomp : ∀ (s acc b : List Char), lazyGo acc s = some b →
    ∃ r, acc.reverse ++ s = b ++ r ∧ isSuffixGroups r = true := by
  intro s
  induction s with
  | nil => intro acc b h; cases h
  | cons c rest ih =>
    intro acc b h
    unfold lazyGo at h
    by_cases hg : isSuffixGroups rest
    · rw [if_pos hg] at h
      refine ⟨rest, ?_, hg⟩
      have hb : b = (c :: acc).reverse := by cases h; rfl
      rw [hb]
      simp
    · rw [if_neg hg] at h
      obtain ⟨r, hr, hgr⟩ := ih (c :: acc) b h
      refine ⟨r, ?_, hgr⟩
      rw [← hr]
      simp

theorem lazyPairedBase_decomp (s b : List Char) (h : lazyPairedBase s = some b) :
    ∃ r, s = b ++ '/' :: r ∧ isSuffixGroups ('/' :: r) = true := by
  obtain ⟨r, hr, hgr⟩ := lazyGo_decomp s [] b h
  simp only [List.reverse_nil, List.nil_append] at hr
  cases r with
  | nil => simp [isSuffixGroups, sgAux] at hgr
  | cons c r' =>
    have hc : c = '/' := by
      by_contra hne
      unfold isSuffixGroups sgAux at hgr
      rw [if_neg hne] at hgr
      cases hgr
    subst hc
    exact ⟨r', hr, hgr⟩

theorem all_takeWhile {p : Char → Bool} : ∀ l : List Char, (l.takeWhile p).all p = true := by
  intro l
  induction l with
  | nil => rfl
  | cons x l ih =>
    by_cases hx : p x
    · simp [List.takeWhile_cons, hx, ih]
    · simp [List.takeWhile_cons, hx]

theorem not_isUpperA_of_isDigitC {c : Char} (h : isDigitC c = true) : isUpperA c = false := by
  simp only [isDigitC, Bool.and_eq_true, decide_eq_true_eq] at h
  simp only [isUpperA, Bool.and_eq_false_iff, decide_eq_false_iff_not]
  omega

theorem isaTail_shape (lead s1 p c q : List Char) (h : isaTail lead s1 = some (p, c, q)) :
    lead ++ s1 = p ++ '-' :: (c ++ '-' :: q)
  ∧ (∃ ds : List Char, p = lead ++ ds ∧ (ds.length = 3 ∨ ds.length = 4)
      ∧ ds.all isDigitC = true)
  ∧ 1 ≤ c.length ∧ c.length ≤ 5 ∧ c.all isUpperA = true
  ∧ q ≠ [] ∧ q.all isDigitC = true := by
  unfold isaTail at h
  by_cases h1 : (s1.takeWhile isDigitC).length = 3 ∨ (s1.takeWhile isDigitC).length = 4
  · rw [if_pos h1] at h
    cases hr1 : s1.dropWhile isDigitC with
    | nil => rw [hr1] at h; exact Option.noConfusion h
    | cons c1 r2 =>
      rw [hr1] at h
      by_cases hc1 : c1 = '-'
      · subst hc1
        simp only at h
        by_cases h2 : 1 ≤ (r2.takeWhile isUpperA).length ∧ (r2.takeWhile isUpperA).length ≤ 5
        · rw [if_pos h2] at h
          cases hr3 : r2.dropWhile isUpperA with
          | nil => rw [hr3] at h; exact Option.noConfusion h
          | cons c2 r4 =>
            rw [hr3] at h
            by_cases hc2 : c2 = '-'
            · subst hc2
              simp only at h
              by_cases h3 : r4 ≠ [] ∧ r4.all isDigitC = true
              · rw [if_pos h3] at h
                simp only [Option.some.injEq, Prod.mk.injEq] at h
                obtain ⟨hp, hc, hq⟩ := h
                have hs1 : s1 = s1.takeWhile isDigitC ++ '-' :: r2 := by
                  conv_lhs => rw [← List.takeWhile_append_dropWhile isDigitC s1]
                  rw [hr1]
                have hr2 : r2 = r2.takeWhile isUpperA ++ '-' :: r4 := by
                  conv_lhs => rw [← List.takeWhile_append_dropWhile isUpperA r2]
                  rw [hr3]
                refine ⟨?_, ⟨s1.takeWhile isDigitC, hp.symm, h1, all_takeWhile s1⟩,
                  ?_, ?_, hc ▸ all_takeWhile r2, hq ▸ h3.1, hq ▸ h3.2⟩
                · rw [← hq, ← hp, ← hc]
                  conv_lhs => rw [hs1, hr2]
                  simp
                · rw [← hc]; exact h2.1
                · rw [← hc]; exact h2.2
              · rw [if_neg h3] at h; exact Option.noConfusion h
            · have : ¬(∃ r', ('-' : Char) :: r' = c2 :: r4) := by
                rintro ⟨r', hr'⟩
                exact hc2 (by injection hr' with hh _; exact hh.symm)
              cases c2 <;> simp_all
        · rw [if_neg h2] at h; exact Option.noConfusion h
      · cases c1 <;> simp_all
  · rw [if_neg h1] at h; exact Option.noConfusion h

theorem parseIsaTag_shape (s p c q : List Char) (h : parseIsaTag s = some (p, c, q)) :
    s = p ++ '-' :: (c ++ '-' :: q)
  ∧ (∃ lead ds : List Char, p = lead ++ ds
      ∧ (lead = [] ∨ ∃ u, lead = [u] ∧ isUpperA u = true)
      ∧ (ds.length = 3 ∨ ds.length = 4) ∧ ds.all isDigitC = true)
  ∧ 1 ≤ c.length ∧ c.length ≤ 5 ∧ c.all isUpperA = true
  ∧ q ≠ [] ∧ q.all isDigitC = true := by
  cases s with
  | nil =>
    simp only [parseIsaTag] at h
    have hnone : isaTail [] [] = none := rfl
    rw [hnone] at h
    exact Option.noConfusion h
  | cons c0 rest =>
    simp only [parseIsaTag] at h
    by_cases hc0 : isUpperA c0
    · rw [if_pos hc0] at h
      obtain ⟨heq, ⟨ds, hp, hlen, hall⟩, h3, h4, h5, h6, h7⟩ := isaTail_shape [c0] rest p c q h
      exact ⟨by simpa using heq, ⟨[c0], ds, hp, Or.inr ⟨c0, rfl, hc0⟩, hlen, hall⟩,
        h3, h4, h5, h6, h7⟩
    · rw [if_neg hc0] at h
      obtain ⟨heq, ⟨ds, hp, hlen, hall⟩, h3, h4, h5, h6, h7⟩ :=
        isaTail_shape [] (c0 :: rest) p c q h
      exact ⟨by simpa using heq, ⟨[], ds, hp, Or.inl rfl, hlen, hall⟩, h3, h4, h5, h6, h7⟩

theorem matchLongTail_shape (ds ls tail : List Char)
    (hds : ds.length = 3 ∨ ds.length = 4) (hdsd : ds.all isDigitC = true)
    (hls : ls ≠ []) (hlsa : ls.all isUpperA = true)
    (htail : ∃ d t, tail = d :: t ∧ isDigitC d = true) :
    matchLongTail (ds ++ '-' :: (ls ++ '-' :: tail)) = some ls := by
  obtain ⟨d, t, rfl, hd⟩ := htail
  have hdsd' : ∀ x ∈ ds, isDigitC x = true := by simpa [List.all_eq_true] using hdsd
  have hlsa' : ∀ x ∈ ls, isUpperA x = true := by simpa [List.all_eq_true] using hlsa
  have hdashd : isDigitC '-' = false := by decide
  have hdashu : isUpperA '-' = false := by decide
  have h1 : List.takeWhile isDigitC (ds ++ '-' :: (ls ++ '-' :: (d :: t))) = ds := by
    rw [List.takeWhile_append_of_pos hdsd', List.takeWhile_cons_of_neg (by simp [hdashd])]
    exact List.append_nil ds
  have h2 : List.dropWhile isDigitC (ds ++ '-' :: (ls ++ '-' :: (d :: t)))
      = '-' :: (ls ++ '-' :: (d :: t)) := by
    rw [List.dropWhile_append_of_pos hdsd', List.dropWhile_cons_of_neg (by simp [hdashd])]
  have h3 : List.takeWhile isUpperA (ls ++ '-' :: (d :: t)) = ls := by
    rw [List.takeWhile_append_of_pos hlsa', List.takeWhile_cons_of_neg (by simp [hdashu])]
    exact List.append_nil ls
  have h4 : List.dropWhile isUpperA (ls ++ '-' :: (d :: t)) = '-' :: (d :: t) := by
    rw [List.dropWhile_append_of_pos hlsa', List.dropWhile_cons_of_neg (by simp [hdashu])]
  unfold matchLongTail
  rw [h1, h2, if_pos hds]
  simp only [h3, h4]
  rw [if_neg (by simpa using hls)]
  simp [hd]

theorem matchLongForm_shape (lead ds ls tail : List Char)
    (hl : lead = [] ∨ ∃ u, lead = [u] ∧ isUpperA u = true)
    (hds : ds.length = 3 ∨ ds.length = 4) (hdsd : ds.all isDigitC = true)
    (hls : ls ≠ []) (hlsa : ls.all isUpperA = true)
    (htail : ∃ d t, tail = d :: t ∧ isDigitC d = true) :
    matchLongForm ((lead ++ ds) ++ '-' :: (ls ++ '-' :: tail)) = some ls := by
  rcases hl with rfl | ⟨u, rfl, hu⟩
  · simp only [List.nil_append]
    cases hds' : ds with
    | nil => rw [hds'] at hds; simp at hds
    | cons d0 ds' =>
      have hd0 : isDigitC d0 = true := by
        have := hdsd
        rw [hds'] at this
        simp only [List.all_cons, Bool.and_eq_true] at this
        exact this.1
      show matchLongTail
          (if isUpperA d0 = true then ds' ++ '-' :: (ls ++ '-' :: tail)
           else d0 :: (ds' ++ '-' :: (ls ++ '-' :: tail)))
        = some ls
      rw [if_neg (by simp [not_isUpperA_of_isDigitC hd0])]
      have he : d0 :: (ds' ++ '-' :: (ls ++ '-' :: tail)) = ds ++ '-' :: (ls ++ '-' :: tail) := by
        rw [hds']
        simp
      rw [he]
      exact matchLongTail_shape ds ls tail hds hdsd hls hlsa htail
  · unfold matchLongForm
    simp only [List.cons_append, List.nil_append, List.append_assoc]
    rw [if_pos hu]
    have := matchLongTail_shape ds ls tail hds hdsd hls hlsa htail
    simpa [List.append_assoc] using this

theorem extract_of_isa_shape (input lead ds ls tail : List Char)
    (hin : input = (lead ++ ds) ++ '-' :: (ls ++ '-' :: tail))
    (hl : lead = [] ∨ ∃ u, lead = [u] ∧ isUpperA u = true)
    (hds : ds.length = 3 ∨ ds.length = 4) (hdsd : ds.all isDigitC = true)
    (hls : ls ≠ []) (hlsa : ls.all isUpperA = true)
    (htail : ∃ d t, tail = d :: t ∧ isDigitC d = true) :
    extract_equipment_type input = ls := by
  unfold extract_equipment_type
  rw [hin, matchLongForm_shape lead ds ls tail hl hds hdsd hls hlsa htail]

theorem natToStringAux_digit_head :
    ∀ (fuel n : Nat) (d : Char) (t : List Char), isDigitC d = true →
      ∃ d' t', natToStringAux fuel n (d :: t) = d' :: t' ∧ isDigitC d' = true := by
  intro fuel
  induction fuel with
  | zero => intro n d t hd; exact ⟨d, t, rfl, hd⟩
  | succ fuel ih =>
    intro n d t hd
    have hdig : isDigitC (Char.ofNat (48 + n % 10)) = true := by
      have hv : (48 + n % 10).isValidChar := Or.inl (by omega)
      simp only [isDigitC, Bool.and_eq_true, decide_eq_true_eq, toNat_ofNat_valid _ hv]
      omega
    unfold natToStringAux
    by_cases hn : n < 10
    · exact ⟨_, _, by rw [if_pos hn], hdig⟩
    · rw [if_neg hn]
      exact ih (n / 10) _ (d :: t) hdig

theorem natToString_digit_head (n : Nat) :
    ∃ d t, natToString n = d :: t ∧ isDigitC d = true := by
  unfold natToString natToStringAux
  have hdig : isDigitC (Char.ofNat (48 + n % 10)) = true := by
    have hv : (48 + n % 10).isValidChar := Or.inl (by omega)
    simp only [isDigitC, Bool.and_eq_true, decide_eq_true_eq, toNat_ofNat_valid _ hv]
    omega
  by_cases hn : n < 10
  · exact ⟨_, _, by rw [if_pos hn], hdig⟩
  · rw [if_neg hn]
    exact natToStringAux_digit_head n (n / 10) _ [] hdig

theorem zfill_digit_head (s : List Char) (w : Nat)
    (h : ∃ d t, s = d :: t ∧ isDigitC d = true) :
    ∃ d t, zfill s w = d :: t ∧ isDigitC d = true := by
  obtain ⟨d, t, rfl, hd⟩ := h
  unfold zfill
  cases hk : w - (d :: t).length with
  | zero => exact ⟨d, t, by simp, hd⟩
  | succ k =>
    refine ⟨ '0', List.replicate k '0' ++ d :: t, ?_, by decide⟩
    simp [List.replicate_succ]

theorem siblingFix_eq_cands (tags : List (List Char)) (p c s : List Char) :
    siblingFix tags p c s
      = oget (siblingCand tags p c s 1)
          (oget (siblingCand tags p c s (-1))
            (oget (siblingCand tags p c s 2) (siblingCand tags p c s (-2)))) := by
  have h0 : siblingFix tags p c s
      = oget (oget (oget (oget none (siblingCand tags p c s 1)) (siblingCand tags p c s (-1)))
          (siblingCand tags p c s 2)) (siblingCand tags p c s (-2)) := rfl
  rw [h0, show (oget none (siblingCand tags p c s 1)) = siblingCand tags p c s 1 from rfl,
    oget_assoc, oget_assoc]

theorem siblingCand_some (tags : List (List Char)) (p c s : List Char) (o : Int)
    (x : List Char) (o' : Int) (h : siblingCand tags p c s o = some (x, o')) :
    x = siblingTagAt p c s o ∧ o' = o ∧ x ∈ tags ∧ ¬((digitsToNat s : Int) + o < 1) := by
  unfold siblingCand at h
  by_cases h1 : (digitsToNat s : Int) + o < 1
  · rw [if_pos h1] at h; exact Option.noConfusion h
  · rw [if_neg h1] at h
    by_cases h2 : siblingTagAt p c s o ∈ tags
    · rw [if_pos h2] at h
      injection h with h'
      have hx : siblingTagAt p c s o = x := congrArg Prod.fst h'
      have ho : o = o' := congrArg Prod.snd h'
      exact ⟨hx.symm, ho.symm, hx ▸ h2, h1⟩
    · rw [if_neg h2] at h; exact Option.noConfusion h

theorem oget_some_left {α : Type} (a : α) (b : Option α) : oget (some a) b = some a := rfl

theorem oget_none_left {α : Type} (b : Option α) : oget none b = b := rfl

theorem siblingFix_some (tags : List (List Char)) (p c s x : List Char) (o : Int)
    (h : siblingFix tags p c s = some (x, o)) :
    x = siblingTagAt p c s o ∧ x ∈ tags ∧ (o = 1 ∨ o = -1 ∨ o = 2 ∨ o = -2) := by
  rw [siblingFix_eq_cands] at h
  cases h1 : siblingCand tags p c s 1 with
  | some v =>
    rw [h1, oget_some_left] at h
    obtain ⟨ha, hb, hc', _⟩ := siblingCand_some tags p c s 1 x o (h1.trans h)
    exact ⟨by rw [hb]; exact ha, hc', by omega⟩
  | none =>
    rw [h1, oget_none_left] at h
    cases h2 : siblingCand tags p c s (-1) with
    | some v =>
      rw [h2, oget_some_left] at h
      obtain ⟨ha, hb, hc', _⟩ := siblingCand_some tags p c s (-1) x o (h2.trans h)
      exact ⟨by rw [hb]; exact ha, hc', by omega⟩
    | none =>
      rw [h2, oget_none_left] at h
      cases h3 : siblingCand tags p c s 2 with
      | some v =>
        rw [h3, oget_some_left] at h
        obtain ⟨ha, hb, hc', _⟩ := siblingCand_some tags p c s 2 x o (h3.trans h)
        exact ⟨by rw [hb]; exact ha, hc', by omega⟩
      | none =>
        rw [h3, oget_none_left] at h
        obtain ⟨ha, hb, hc', _⟩ := siblingCand_some tags p c s (-2) x o h
        exact ⟨by rw [hb]; exact ha, hc', by omega⟩

theorem extract_lazyPairedBase (et b : List Char) (h : lazyPairedBase et = some b) :
    extract_equipment_type b = extract_equipment_type et := by
  obtain ⟨r, rfl, _⟩ := lazyPairedBase_decomp et b h
  exact (extract_append_slash b r).symm

theorem extract_parseIsaTag (et p c q : List Char) (h : parseIsaTag et = some (p, c, q)) :
    extract_equipment_type et = c := by
  obtain ⟨heq, ⟨lead, ds, hp, hl, hlen, hall⟩, hc1, _, hca, hq, hqd⟩ :=
    parseIsaTag_shape et p c q h
  refine extract_of_isa_shape et lead ds c q (by rw [heq, hp]) hl hlen hall ?_ hca ?_
  · intro hc; rw [hc] at hc1; simp at hc1
  · cases q with
    | nil => exact absurd rfl hq
    | cons d t =>
      refine ⟨d, t, rfl, ?_⟩
      have := hqd
      simp only [List.all_cons, Bool.and_eq_true] at this
      exact this.1

theorem extract_sibling_preserved (et p c q : List Char) (o : Int)
    (h : parseIsaTag et = some (p, c, q)) :
    extract_equipment_type (siblingTagAt p c q o) = extract_equipment_type et := by
  rw [extract_parseIsaTag et p c q h]
  obtain ⟨heq, ⟨lead, ds, hp, hl, hlen, hall⟩, hc1, _, hca, hq, hqd⟩ :=
    parseIsaTag_shape et p c q h
  refine extract_of_isa_shape (siblingTagAt p c q o) lead ds c
    (zfill (natToString ((digitsToNat q : Int) + o).toNat) q.length)
    ?_ hl hlen hall ?_ hca ?_
  · rw [siblingTagAt, hp]
    simp
  · intro hc; rw [hc] at hc1; simp at hc1
  · exact zfill_digit_head _ _ (natToString_digit_head _)

/-- The auto-fix pass changes an orphan `equipment_tag` only to the paired
suffix-stripped stem (when known) or, for ISA-formatted references, to the
first admissible sibling at offsets `+1, -1, +2, -2`; a fix never crosses to a
different equipment-type code, known or empty references are untouched, and a
non-ISA orphan is left untouched with an informational message. -/
theorem auto_fix_strategies :
    (∀ (tags : List (List Char)) (inst : Instrument),
      (∀ et, inst.equipment_tag = some et → (et = [] ∨ et ∈ tags)) →
      fixStep tags inst = (inst, false, []))
  ∧ (∀ (tags : List (List Char)) (inst : Instrument),
      (fixStep tags inst).1 = inst
      ∨ ∃ et new, inst.equipment_tag = some et ∧ et ∉ tags
          ∧ (fixStep tags inst).1 = { inst with equipment_tag := some new }
          ∧ new ∈ tags
          ∧ ((lazyPairedBase et = some new)
             ∨ ∃ p c q o, parseIsaTag et = some (p, c, q)
                ∧ siblingFix tags p c q = some (new, o))
          ∧ extract_equipment_type new = extract_equipment_type et)
  ∧ (∀ (tags : List (List Char)) (p c q : List Char),
      siblingFix tags p c q
        = oget (siblingCand tags p c q 1)
            (oget (siblingCand tags p c q (-1))
              (oget (siblingCand tags p c q 2) (siblingCand tags p c q (-2)))))
  ∧ (∀ (tags : List (List Char)) (inst : Instrument) (et b : List Char),
      inst.equipment_tag = some et → et ≠ [] → et ∉ tags →
      lazyPairedBase et = some b → b ∈ tags →
      fixStep tags inst = ({ inst with equipment_tag := some b }, true,
        [fixMsgStripped (fullTagOrUnknown inst) et b]))
  ∧ (∀ (tags : List (List Char)) (inst : Instrument) (et : List Char),
      inst.equipment_tag = some et → et ≠ [] → et ∉ tags →
      (∀ b, lazyPairedBase et = some b → b ∉ tags) →
      parseIsaTag et = none →
      fixStep tags inst = (inst, false, [infoMsgNonIsa (fullTagOrUnknown inst) et])) := by
  refine ⟨?_, ?_, fun tags p c q => siblingFix_eq_cands tags p c q, ?_, ?_⟩
  · intro tags inst h
    cases he : inst.equipment_tag with
    | none => simp [fixStep, he]
    | some et => simp [fixStep, he, h et he]
  · intro tags inst
    cases he : inst.equipment_tag with
    | none => left; simp [fixStep, he]
    | some et =>
      by_cases h0 : et = [] ∨ et ∈ tags
      · left; simp [fixStep, he, h0]
      · push_neg at h0
        cases hlz : lazyPairedBase et with
        | some base =>
          by_cases hb : base ∈ tags
          · right
            refine ⟨et, base, rfl, h0.2, ?_, hb, Or.inl hlz,
              extract_lazyPairedBase et base hlz⟩
            simp [fixStep, he, h0.1, h0.2, hlz, hb]
          · cases hisa : parseIsaTag et with
            | some tpl =>
              obtain ⟨p, c, q⟩ := tpl
              cases hsf : siblingFix tags p c q with
              | some pr =>
                obtain ⟨new, o⟩ := pr
                right
                obtain ⟨hnew, hmem, _⟩ := siblingFix_some tags p c q new o hsf
                refine ⟨et, new, rfl, h0.2, ?_, hmem, Or.inr ⟨p, c, q, o, hisa, hsf⟩, ?_⟩
                · simp [fixStep, he, h0.1, h0.2, hlz, hb, hisa, hsf]
                · rw [hnew]
                  exact extract_sibling_preserved et p c q o hisa
              | none => left; simp [fixStep, he, h0.1, h0.2, hlz, hb, hisa, hsf]
            | none => left; simp [fixStep, he, h0.1, h0.2, hlz, hb, hisa]
        | none =>
          cases hisa : parseIsaTag et with
          | some tpl =>
            obtain ⟨p, c, q⟩ := tpl
            cases hsf : siblingFix tags p c q with
            | some pr =>
              obtain ⟨new, o⟩ := pr
              right
              obtain ⟨hnew, hmem, _⟩ := siblingFix_some tags p c q new o hsf
              refine ⟨et, new, rfl, h0.2, ?_, hmem, Or.inr ⟨p, c, q, o, hisa, hsf⟩, ?_⟩
              · simp [fixStep, he, h0.1, h0.2, hlz, hisa, hsf]
              · rw [hnew]
                exact extract_sibling_preserved et p c q o hisa
            | none => left; simp [fixStep, he, h0.1, h0.2, hlz, hisa, hsf]
          | none => left; simp [fixStep, he, h0.1, h0.2, hlz, hisa]
  · intro tags inst et b he hne hmem hlz hb
    simp [fixStep, he, hne, hmem, hlz, hb]
  · intro tags inst et he hne hmem hlznone hisa
    cases hlz : lazyPairedBase et with
    | some base =>
      have hb : base ∉ tags := hlznone base hlz
      simp [fixStep, he, hne, hmem, hlz, hb, hisa]
    | none => simp [fixStep, he, hne, hmem, hlz, hisa]

/-- A below-1 sibling sequence is never probed: with `500-P-00` known, the
orphan `500-P-01` stays unfixed even though its offset `-1` sibling is in the
set. -/
theorem auto_fix_below_one_guard_cex :
    fixStep [("500-P-00".data)] { equipment_tag := some ("500-P-01".data) }
      = ({ equipment_tag := some ("500-P-01".data) }, false, [])
  ∧ siblingTagAt ("500".data) ("P".data) ("01".data) (-1) = ("500-P-00".data)
  ∧ parseIsaTag ("500-P-01".data) = some (("500".data), ("P".data), ("01".data))
  ∧ ("500-P-00".data) ∈ [("500-P-00".data)] := by
  refine ⟨by decide, by decide, by decide, by decide⟩

/-- Concrete auto-fix instances: a known reference is untouched, and a
non-ISA orphan reference yields only the manual-review message. -/
theorem auto_fix_strategies_witness :
    fixStep [("200-P-01".data)] { equipment_tag := some ("200-P-01".data) }
      = ({ equipment_tag := some ("200-P-01".data) }, false, [])
  ∧ fixStep [] { equipment_tag := some ("FEED TANK".data) }
      = ({ equipment_tag := some ("FEED TANK".data) }, false,
         [("  [info] unknown: non-ISA equipment_tag 'FEED TANK' — skipped (manual review)".data)])
  ∧ fixStep [("202-B-01".data)] { equipment_tag := some ("202-B-01/02".data) }
      = ({ equipment_tag := some ("202-B-01".data) }, true,
         [("  [fix] unknown: '202-B-01/02' → '202-B-01' (stripped paired suffix)".data)]) := by
  refine ⟨auto_fix_strategies.1 [("200-P-01".data)]
      { equipment_tag := some ("200-P-01".data) }
      (fun et het => by injection het with h'; rw [← h']; exact Or.inr (by decide)), ?_, ?_⟩
  · have h := auto_fix_strategies.2.2.2.2 [] { equipment_tag := some ("FEED TANK".data) }
      ("FEED TANK".data) rfl (by decide) (by decide)
      (fun b hb => by
        rw [show lazyPairedBase ("FEED TANK".data) = none from by decide] at hb
        exact Option.noConfusion hb)
      (by decide)
    exact h.trans (by decide)
  · have h := auto_fix_strategies.2.2.2.1 [("202-B-01".data)]
      { equipment_tag := some ("202-B-01/02".data) } ("202-B-01/02".data) ("202-B-01".data)
      rfl (by decide) (by decide) (by decide) (by decide)
    exact h.trans (by decide)

/-- Concrete instance of `generate_io_signals_spec` on a one-template pattern
with an explicit suffix and absent function/io_type/signal_type fields. -/
theorem generate_io_signals_spec_witness :
    ((generate_io_signals { signals := [{ suffix := some ("RUN".data) }] }
        ("300-P-01-M".data) ("VFD".data) 5).get ⟨0, by decide⟩).signal_function = ("Status".data)
  ∧ ((generate_io_signals { signals := [{ suffix := some ("RUN".data) }] }
        ("300-P-01-M".data) ("VFD".data) 5).get ⟨0, by decide⟩).plc_tag
      = ("300-P-01-M-RUN".data) := by
  obtain ⟨h1, _, _, h4, _⟩ := (generate_io_signals_spec
    { signals := [{ suffix := some ("RUN".data) }] } ("300-P-01-M".data) ("VFD".data) 5).2
    0 (by decide) (by decide)
  exact ⟨h1.trans (by decide), h4.trans (by decide)⟩

end InstrSkill
